import Mathlib

/-!
Falltergeist: script opcode handlers, map/game variables and the location update cycle

A shallow embedding of parts of the Falltergeist engine:

* `VM/Handlers/Opcode80C9Handler.cpp`, `Opcode8131Handler.cpp`, `Opcode8119Handler.cpp`
* `State/Location.cpp` (`MVAR`, `setMVAR`, `think`, `getCursorIconsForObject`, the object
  loop of `setLocation`, `moveObjectToHexagon`, `destroyObject`, `handleAction`,
  `onKeyDown`)
* `Game/Game.cpp` (`GVAR`, `setGVAR`, `_initGVARS`, `run`, `_getVisibleStates`,
  `_getActiveStates`)
* `Game/Object.h` (`Orientation`, `Object::Type`)
* `UI/InventoryItem.cpp` (`size`, `onArmorDragStop`) and `UI/ItemsList.cpp` (`update`,
  `addItem`, `removeItem`)

Pointers to engine objects are handles (natural numbers) into an object store; a null
pointer is `none`.  Code that throws returns the state it leaves behind together with
the error.
-/

namespace Falltergeist

/-! ## Engine objects -/

/-- Modelled from the spec: the class declarations of the game objects (`Game/*Object.h`
other than `Object.h`) are not among the sources.  These are the classes the sources name;
the dynamic type of an object is one of them. -/
inductive ObjectClass
  | Object
  | ItemObject
  | ArmorItemObject
  | ContainerItemObject
  | DrugItemObject
  | WeaponItemObject
  | AmmoItemObject
  | MiscItemObject
  | KeyItemObject
  | CritterObject
  | DudeObject
  | DoorSceneryObject
  | ExitMiscObject
  deriving DecidableEq, Repr

/-- Modelled from the spec: the direct base among the named classes.  The item classes are
used as `ItemObject*` (`ItemsList.cpp`, `InventoryItem.cpp`), the `DudeObject* player` is
passed where a `CritterObject*` is expected (`Location::handleAction`), and every class is
used as `Game::Object*`. -/
def ObjectClass.base : ObjectClass → Option ObjectClass
  | .Object => none
  | .ItemObject => some .Object
  | .ArmorItemObject => some .ItemObject
  | .ContainerItemObject => some .ItemObject
  | .DrugItemObject => some .ItemObject
  | .WeaponItemObject => some .ItemObject
  | .AmmoItemObject => some .ItemObject
  | .MiscItemObject => some .ItemObject
  | .KeyItemObject => some .ItemObject
  | .CritterObject => some .Object
  | .DudeObject => some .CritterObject
  | .DoorSceneryObject => some .Object
  | .ExitMiscObject => some .Object

/-- Whether an object of dynamic class `c` is an instance of `target`: `c` is `target`, or
its base, or the base of its base (the hierarchy is at most three levels deep). -/
def ObjectClass.isA (c target : ObjectClass) : Bool :=
  c == target ||
  (match c.base with
   | none => false
   | some b =>
     b == target ||
     (match b.base with
      | none => false
      | some bb => bb == target))

/-- An object pointer: `none` is the null pointer, `some h` the object with handle `h`. -/
abbrev ObjectPtr := Option Nat

/-- `Game::Orientation` (`Game/Object.h`): a direction in hexagonal space, kept in the
`unsigned char` member `_dir`. -/
structure Orientation where
  _dir : Nat := 0
  deriving DecidableEq, Repr

/-- The constructor `Orientation(unsigned char value)`: the argument is converted to
`unsigned char` (8 bits) and `_dir = (unsigned char)(value % 6)`. -/
def Orientation.ofUnsignedChar (value : Nat) : Orientation :=
  { _dir := ((value % 256) % 6) % 256 }

/-- The conversion `operator unsigned char() const`. -/
def Orientation.toUnsignedChar (o : Orientation) : Nat := o._dir

/-- `Object::Type`, the object type as defined in the prototype (`Game/Object.h`). -/
inductive ObjectType
  | ITEM
  | CRITTER
  | SCENERY
  | WALL
  | TILE
  | MISC
  | DUDE
  deriving DecidableEq, Repr

/-- The members of a game object that the embedded code reads or writes.  `opened` is the
`_opened` member behind `setOpened` of doors and containers; `script` is `Object::_script`
(a handle of the VM instance, `none` when the object has no script); `type` is
`Object::_type`, `orientation` is `Object::_orientation`, and `hexagon` is
`Object::_hexagon` (`none` when null). -/
structure GameObject where
  cls : ObjectClass := .Object
  opened : Bool := false
  script : Option Nat := none
  type : ObjectType := .ITEM
  orientation : Orientation := {}
  hexagon : Option Nat := none
  deriving DecidableEq, Repr

/-- Engine-owned object storage: the object behind each handle. -/
abbrev ObjectStore := Nat → GameObject

/-- The C++ `dynamic_cast<target*>(object)`: null for a null pointer and for an object that
is not an instance of `target`, the pointer itself otherwise. -/
def dynamic_cast (target : ObjectClass) (objects : ObjectStore) (object : ObjectPtr) :
    ObjectPtr :=
  match object with
  | none => none
  | some h => if (objects h).cls.isA target then some h else none

/-- The `setOpened(value)` of doors and containers, on the object with handle `h`. -/
def setOpened (objects : ObjectStore) (h : Nat) (value : Bool) : ObjectStore :=
  Function.update objects h { objects h with opened := value }

/-! ## Values and the data stack -/

/-- A stack or variable slot (spec §3).  A float is kept as its 64-bit pattern. -/
inductive Value
  | integer (i : Int)
  | float (bits : Nat)
  | stringRef (index : Nat)
  | objectRef (object : ObjectPtr)
  | unset
  deriving DecidableEq, Repr

/-- The errors a script call can raise.  The first two are the stack errors of spec §7;
`scriptError` is the error raised by `OpcodeHandler::_error(message)`. -/
inductive VMError
  | stackUnderflow
  | typeMismatch
  | scriptError (message : String)
  deriving DecidableEq, Repr

/-- The data stack; the head of the list is the top (the tail end of the sequence). -/
abbrev VMStack := List Value

/-- Modelled from the spec: `VMStack::push` is not among the sources.  Spec §4.1:
"appends; no upper bound other than available memory". -/
def VMStack.push (s : VMStack) (v : Value) : VMStack := v :: s

/-- Modelled from the spec: `VMStack::pop` is not among the sources.  Spec §4.1: "removes
and returns the tail element; fails with `StackUnderflow` if empty". -/
def VMStack.pop : VMStack → Except VMError Value × VMStack
  | [] => (.error .stackUnderflow, [])
  | v :: rest => (.ok v, rest)

/-- Modelled from the spec: `VMStack::popObject` is not among the sources.  Spec §4.1: "pop
then coerce; fail with `TypeMismatch` if the popped Value's tag is incompatible with the
requested type".  The value stays popped when the coercion fails. -/
def VMStack.popObject (s : VMStack) : Except VMError ObjectPtr × VMStack :=
  match s.pop with
  | (.error e, s1) => (.error e, s1)
  | (.ok (.objectRef object), s1) => (.ok object, s1)
  | (.ok _, s1) => (.error .typeMismatch, s1)

/-- What an opcode handler can reach through `_vm` and `Game::getInstance()`: the data
stack, the engine objects, and the day of the game time. -/
structure VM where
  dataStack : VMStack
  objects : ObjectStore
  gameTimeDay : Nat

/-- The state a handler leaves behind, and the error it raised, if any. -/
structure HandlerResult where
  vm : VM
  error : Option VMError

/-- The integer pushed by `obj_item_subtype` for the popped pointer: the `if`/`else if`
chain of `Opcode80C9Handler::_run`. -/
def Opcode80C9Handler.subtype (objects : ObjectStore) (object : ObjectPtr) : Int :=
  if (dynamic_cast .ArmorItemObject objects object).isSome then 0
  else if (dynamic_cast .ContainerItemObject objects object).isSome then 1
  else if (dynamic_cast .DrugItemObject objects object).isSome then 2
  else if (dynamic_cast .WeaponItemObject objects object).isSome then 3
  else if (dynamic_cast .AmmoItemObject objects object).isSome then 4
  else if (dynamic_cast .MiscItemObject objects object).isSome then 5
  else if (dynamic_cast .KeyItemObject objects object).isSome then 6
  else -1

/-- Opcode 80C9, `int obj_item_subtype(GameItemObject* object)`. -/
def Opcode80C9Handler._run (vm : VM) : HandlerResult :=
  match vm.dataStack.popObject with
  | (.error e, s) => ⟨{ vm with dataStack := s }, some e⟩
  | (.ok object, s) =>
    ⟨{ vm with dataStack := s.push (.integer (Opcode80C9Handler.subtype vm.objects object)) },
     none⟩

/-- Opcode 8131, `void obj_open(GameDoorSceneryObject* object)`.  `_error` raises, so the
null check ends the run; the existing door or container gets `setOpened(true)`. -/
def Opcode8131Handler._run (vm : VM) : HandlerResult :=
  match vm.dataStack.popObject with
  | (.error e, s) => ⟨{ vm with dataStack := s }, some e⟩
  | (.ok object, s) =>
    let vm1 : VM := { vm with dataStack := s }
    if object.isNone then
      ⟨vm1, some (.scriptError "obj_open: object is NULL")⟩
    else
      match dynamic_cast .DoorSceneryObject vm1.objects object with
      | some door => ⟨{ vm1 with objects := setOpened vm1.objects door true }, none⟩
      | none =>
        match dynamic_cast .ContainerItemObject vm1.objects object with
        | some container =>
          ⟨{ vm1 with objects := setOpened vm1.objects container true }, none⟩
        | none => ⟨vm1, some (.scriptError "obj_open: object is not openable type!")⟩

/-- Opcode 8119, `int get_day()`: pushes `gameTime()->day()`. -/
def Opcode8119Handler._run (vm : VM) : HandlerResult :=
  ⟨{ vm with dataStack := vm.dataStack.push (.integer (Int.ofNat vm.gameTimeDay)) }, none⟩

/-! ## Map variables (`State/Location.cpp`) and game variables (`Game/Game.cpp`) -/

/-- The engine's `Exception(message)`. -/
structure Exception where
  message : String
  deriving DecidableEq, Repr

/-- The C++ conversion `(int)number` of an `unsigned int` (32 bits, two's complement). -/
def toInt (number : Nat) : Int :=
  if number % 2 ^ 32 < 2 ^ 31 then Int.ofNat (number % 2 ^ 32)
  else Int.ofNat (number % 2 ^ 32) - 2 ^ 32

/-- The members of `State::Location` that the embedded code reads or writes.  `_objects`
holds the handles of the location's objects in storage order; `_locationScript` is the
handle of the location's VM instance, `none` when there is none. -/
structure Location where
  _MVARS : List Int := []
  _objects : List Nat := []
  _locationScript : Option Nat := none
  _locationEnter : Bool := true
  _scriptsTicks : Nat := 0
  _objectUnderCursor : ObjectPtr := none
  deriving DecidableEq, Repr

/-- `Location::setMVAR(number, value)`: the result of the call and the location it leaves. -/
def Location.setMVAR (loc : Location) (number : Nat) (value : Int) :
    Except Exception Unit × Location :=
  if number >= loc._MVARS.length then
    (.error ⟨"Location::setMVAR(num, value) - num out of range: " ++ toString (toInt number)⟩,
     loc)
  else
    (.ok (), { loc with _MVARS := loc._MVARS.set number value })

/-- `Location::MVAR(number)`. -/
def Location.MVAR (loc : Location) (number : Nat) : Except Exception Int :=
  if h : number >= loc._MVARS.length then
    .error ⟨"Location::MVAR(num) - num out of range: " ++ toString (toInt number)⟩
  else
    .ok (loc._MVARS.get ⟨number, Nat.lt_of_not_ge h⟩)

/-- The members of `Game::Game` that the embedded code reads or writes.  `_states` is the
state stack, bottom first (its last element is `_states.back()`, the top), as handles of
the states it owns; `_statesForDelete` holds the states popped and not yet deleted. -/
structure Game where
  _GVARS : List Int := []
  _states : List Nat := []
  _statesForDelete : List Nat := []
  _quit : Bool := false
  _frame : Nat := 0
  deriving DecidableEq, Repr

/-- The `GVARS()` table of the `data/vault13.gam` resource: name and value of each global,
in iteration order. -/
abbrev GamGVARS := List (String × Int)

/-- `Game::_initGVARS()`: does nothing on a non-empty table, otherwise pushes the value of
every global of the gam file. -/
def Game._initGVARS (gam : GamGVARS) (game : Game) : Game :=
  if game._GVARS.length > 0 then game
  else { game with _GVARS := gam.foldl (fun acc gvar => acc ++ [gvar.2]) game._GVARS }

/-- `Game::setGVAR(number, value)`: the result of the call and the game it leaves. -/
def Game.setGVAR (gam : GamGVARS) (game : Game) (number : Nat) (value : Int) :
    Except Exception Unit × Game :=
  let game1 := Game._initGVARS gam game
  if number >= game1._GVARS.length then
    (.error ⟨"Game::setGVAR(num, value) - num out of range: " ++ toString number⟩, game1)
  else
    (.ok (), { game1 with _GVARS := game1._GVARS.set number value })

/-- `Game::GVAR(number)`: the result of the call and the game it leaves. -/
def Game.GVAR (gam : GamGVARS) (game : Game) (number : Nat) : Except Exception Int × Game :=
  let game1 := Game._initGVARS gam game
  if h : number >= game1._GVARS.length then
    (.error ⟨"Game::GVAR(num) - num out of range: " ++ toString number⟩, game1)
  else
    (.ok (game1._GVARS.get ⟨number, Nat.lt_of_not_ge h⟩), game1)

/-- A call of one of the two game-variable accessors. -/
inductive GVarCall
  | setGVAR (number : Nat) (value : Int)
  | GVAR (number : Nat)
  deriving DecidableEq, Repr

/-- The game left by one accessor call (whether it threw or not). -/
def Game.step (gam : GamGVARS) (game : Game) : GVarCall → Game
  | .setGVAR number value => (Game.setGVAR gam game number value).2
  | .GVAR number => (Game.GVAR gam game number).2

/-- The game left by a sequence of accessor calls. -/
def Game.afterCalls (gam : GamGVARS) (game : Game) (calls : List GVarCall) : Game :=
  calls.foldl (Game.step gam) game

/-- Specification side of the game-variable table: the value most recently written to
`number` by a `setGVAR` of the sequence, if there is one. -/
def lastWritten (number : Nat) : List GVarCall → Option Int
  | [] => none
  | .setGVAR m value :: cs =>
    (lastWritten number cs).orElse (fun _ => if m = number then some value else none)
  | .GVAR _ :: cs => lastWritten number cs

/-! ## Script scheduling in `Location::think` -/

/-- A call that `Location::think` makes on a script VM or on an object's script hooks. -/
inductive ScriptCall
  | initializeScript (vm : Nat)
  | call (vm : Nat) (name : String)
  | map_enter_p_proc (object : Nat)
  | map_update_p_proc (object : Nat)
  deriving DecidableEq, Repr

/-- What one `Location::think` reads from outside the location: the engine objects, the
player (`Game::getInstance()->player()`), and the two readings of `SDL_GetTicks()`. -/
structure ThinkInput where
  objects : ObjectStore
  player : Nat
  ticks : Nat
  ticksAtUpdate : Nat

/-- The script-scheduling statement of `Location::think` (`if (_locationEnter) ... else
...`): the location it leaves and the calls it makes, in order.  The statements of `think`
around it (object `think`, scrolling, action cursor) do not touch `_locationEnter` or
`_scriptsTicks`.  `_scriptsTicks + 10000` is 32-bit unsigned arithmetic. -/
def Location.think (loc : Location) (input : ThinkInput) : Location × List ScriptCall :=
  if loc._locationEnter then
    let loc1 := { loc with _locationEnter := false }
    let initLocation := match loc1._locationScript with
      | some vm => [ScriptCall.initializeScript vm]
      | none => []
    let initObjects := loc1._objects.filterMap
      (fun object => (input.objects object).script.map ScriptCall.initializeScript)
    let initPlayer := match (input.objects input.player).script with
      | some vm => [ScriptCall.initializeScript vm]
      | none => []
    let enterLocation := match loc1._locationScript with
      | some vm => [ScriptCall.call vm "map_enter_p_proc"]
      | none => []
    let enterPlayer := [ScriptCall.map_enter_p_proc input.player]
    let enterObjects := loc1._objects.reverse.map ScriptCall.map_enter_p_proc
    (loc1, initLocation ++ initObjects ++ initPlayer ++ enterLocation ++ enterPlayer
      ++ enterObjects)
  else
    if (loc._scriptsTicks + 10000) % 2 ^ 32 < input.ticks then
      let loc1 := { loc with _scriptsTicks := input.ticksAtUpdate }
      let updateLocation := match loc1._locationScript with
        | some vm => [ScriptCall.call vm "map_update_p_proc"]
        | none => []
      let updateObjects := loc1._objects.map ScriptCall.map_update_p_proc
      (loc1, updateLocation ++ updateObjects ++ [ScriptCall.map_update_p_proc input.player])
    else
      (loc, [])

/-- Specification side of `obj_item_subtype`: the subtype number of each kind of object. -/
def itemSubtype : ObjectClass → Int
  | .ArmorItemObject => 0
  | .ContainerItemObject => 1
  | .DrugItemObject => 2
  | .WeaponItemObject => 3
  | .AmmoItemObject => 4
  | .MiscItemObject => 5
  | .KeyItemObject => 6
  | _ => -1

/-- Whether a call invokes `map_enter_p_proc` (of a script VM or of an object). -/
def ScriptCall.isMapEnter : ScriptCall → Bool
  | .call _ name => name == "map_enter_p_proc"
  | .map_enter_p_proc _ => true
  | _ => false

/-- Whether a call invokes `map_update_p_proc` (of a script VM or of an object). -/
def ScriptCall.isMapUpdate : ScriptCall → Bool
  | .call _ name => name == "map_update_p_proc"
  | .map_update_p_proc _ => true
  | _ => false

/-- The calls made by each `think` of a sequence, one list per `think`, in order. -/
def Location.thinkTraces : Location → List ThinkInput → List (List ScriptCall)
  | _, [] => []
  | loc, input :: inputs =>
    (loc.think input).2 :: Location.thinkTraces (loc.think input).1 inputs

/-! ## Cursor icons (`Location::getCursorIconsForObject`) -/

/-- The values of `Input::Mouse::Icon` that the sources name. -/
inductive Icon
  | USE
  | ROTATE
  | TALK
  | LOOK
  | INVENTORY
  | SKILL
  | CANCEL
  deriving DecidableEq, Repr

/-- `Location::getCursorIconsForObject(object)` for the (non-null) object with handle
`object`.  `hasFunction vm name` stands for `VM::hasFunction(name)` on the VM instance with
handle `vm`. -/
def Location.getCursorIconsForObject (hasFunction : Nat → String → Bool)
    (objects : ObjectStore) (object : Nat) : List Icon :=
  let icons : List Icon := []
  let icons :=
    if (match (objects object).script with
        | some vm => hasFunction vm "use_p_proc"
        | none => false) then
      icons ++ [Icon.USE]
    else if (dynamic_cast .DoorSceneryObject objects (some object)).isSome then
      icons ++ [Icon.USE]
    else if (dynamic_cast .ContainerItemObject objects (some object)).isSome then
      icons ++ [Icon.USE]
    else icons
  let icons :=
    match (objects object).type with
    | .ITEM => icons
    | .DUDE => icons ++ [Icon.ROTATE]
    | .SCENERY => icons
    | .CRITTER => icons ++ [Icon.TALK]
    | _ => icons
  icons ++ [Icon.LOOK] ++ [Icon.INVENTORY] ++ [Icon.SKILL] ++ [Icon.CANCEL]

/-! ## The state stack and the main loop (`Game/Game.cpp`) -/

/-- The flags of a `State::State` that the embedded code reads or writes. -/
structure StateFlags where
  active : Bool := false
  modal : Bool := false
  fullscreen : Bool := false
  deriving DecidableEq, Repr

/-- The state behind each handle. -/
abbrev StateStore := Nat → StateFlags

/-- The loop `do { --it; } while (it != _states.begin() && !(*it)->fullscreen());` of
`Game::_getVisibleStates`, entered with the iterator at distance `it` from `begin()`: the
distance from `begin()` at which it stops. -/
def Game._getVisibleStates.scan (states : StateStore) (_states : List Nat) : Nat → Nat
  | 0 => 0
  | it + 1 =>
    if it != 0 && !(match _states[it]? with
                    | some state => (states state).fullscreen
                    | none => false) then
      Game._getVisibleStates.scan states _states it
    else it

/-- `Game::_getVisibleStates()`: the states to render, in the order they are pushed to
`subset`. -/
def Game._getVisibleStates (states : StateStore) (game : Game) : List Nat :=
  if game._states.length == 0 then []
  else
    game._states.drop (Game._getVisibleStates.scan states game._states game._states.length)

/-- The statement `if (!state->active()) { emitEvent("activate"); setActive(true); }` of
`Game::_getActiveStates`: the states it leaves and the events it emitted. -/
def Game._getActiveStates.activate (states : StateStore) (state : Nat) :
    StateStore × List (Nat × String) :=
  if !(states state).active then
    (Function.update states state { states state with active := true }, [(state, "activate")])
  else (states, [])

/-- The statement `if (state->active()) { emitEvent("deactivate"); setActive(false); }` of
`Game::_getActiveStates`: the states it leaves and the events it emitted. -/
def Game._getActiveStates.deactivate (states : StateStore) (state : Nat) :
    StateStore × List (Nat × String) :=
  if (states state).active then
    (Function.update states state { states state with active := false },
     [(state, "deactivate")])
  else (states, [])

/-- The first loop of `Game::_getActiveStates` over the states still to visit (top first):
the states it leaves, what it pushed to `subset`, the events it emitted, and the states the
second loop has still to visit. -/
def Game._getActiveStates.activeLoop (states : StateStore) :
    List Nat → StateStore × List Nat × List (Nat × String) × List Nat
  | [] => (states, [], [], [])
  | state :: rest =>
    let a := Game._getActiveStates.activate states state
    if (a.1 state).modal || (a.1 state).fullscreen then
      (a.1, [state], a.2, rest)
    else
      let r := Game._getActiveStates.activeLoop a.1 rest
      (r.1, state :: r.2.1, a.2 ++ r.2.2.1, r.2.2.2)

/-- The second loop of `Game::_getActiveStates` over the states still to visit: the states
it leaves and the events it emitted. -/
def Game._getActiveStates.inactiveLoop (states : StateStore) :
    List Nat → StateStore × List (Nat × String)
  | [] => (states, [])
  | state :: rest =>
    let a := Game._getActiveStates.deactivate states state
    let r := Game._getActiveStates.inactiveLoop a.1 rest
    (r.1, a.2 ++ r.2)

/-- `Game::_getActiveStates()`: the states it leaves, the returned `subset`, and the
events emitted (state and event name), in order. -/
def Game._getActiveStates (states : StateStore) (game : Game) :
    StateStore × List Nat × List (Nat × String) :=
  let a := Game._getActiveStates.activeLoop states game._states.reverse
  let b := Game._getActiveStates.inactiveLoop a.1 a.2.2.2
  (b.1, a.2.1, a.2.2.1 ++ b.2)

/-- Specification side of `_getActiveStates`: the elements of a list up to and including
the first one that satisfies `p` (the whole list if there is none). -/
def takeThrough (p : Nat → Bool) : List Nat → List Nat
  | [] => []
  | x :: xs => if p x then [x] else x :: takeThrough p xs

/-- The elements of a list after the first one that satisfies `p`. -/
def dropThrough (p : Nat → Bool) : List Nat → List Nat
  | [] => []
  | x :: xs => if p x then xs else dropThrough p xs

/-- A step of an iteration of the main loop `Game::run`. -/
inductive LoopCall
  | handle
  | think
  | render
  | SDL_Delay (ms : Nat)
  | clearStatesForDelete
  deriving DecidableEq, Repr

/-- The effects on the game of `Game::handle()`, `Game::think()` and `Game::render()`;
they run the states and the event handlers, which may pop states and call `quit()`. -/
structure FrameSteps where
  handle : Game → Game
  think : Game → Game
  render : Game → Game

/-- The body of the `while (!_quit)` loop of `Game::run`: the game it leaves and the steps
it takes, in order.  `_frame` is an `unsigned int`. -/
def Game.run.body (steps : FrameSteps) (game : Game) : Game × List LoopCall :=
  let game1 := steps.handle game
  let game2 := steps.think game1
  let game3 := steps.render game2
  ({ game3 with _statesForDelete := [], _frame := (game3._frame + 1) % 2 ^ 32 },
   [.handle, .think, .render, .SDL_Delay 1, .clearStatesForDelete])

/-- The `while (!_quit)` loop of `Game::run`, for at most `fuel` iterations. -/
def Game.run.loop (steps : FrameSteps) : Nat → Game → Game × List LoopCall
  | 0, game => (game, [])
  | fuel + 1, game =>
    if !game._quit then
      let r := Game.run.body steps game
      let r1 := Game.run.loop steps fuel r.1
      (r1.1, r.2 ++ r1.2)
    else (game, [])

/-- `Game::run()`, for at most `fuel` iterations of its loop. -/
def Game.run (steps : FrameSteps) (fuel : Nat) (game : Game) : Game × List LoopCall :=
  Game.run.loop steps fuel { game with _frame := 0 }

/-! ## Placing, destroying and acting on objects (`State/Location.cpp`) -/

/-- A script VM instance as created by `new VM(intFile, owner)`: the program it runs and
the object it is bound to. -/
structure VMInstance where
  program : Nat
  owner : ObjectPtr
  deriving DecidableEq, Repr

/-- The engine state around a location: the objects, the number of object handles in use
(the next object created gets this handle), the VM instances (the handle of a VM is its
index), and the object list `Hexagon::objects()` of each hexagon. -/
structure World where
  objects : ObjectStore
  objectCount : Nat := 0
  vms : List VMInstance := []
  hexagonObjects : Nat → List Nat := fun _ => []

/-- The fields of a map-file object record (`libfalltergeist` `Map::Object`) that the
embedded code reads. -/
structure MapObject where
  PID : Nat
  orientation : Nat := 0
  hexPosition : Nat := 0
  scriptId : Int := -1
  mapScriptId : Int := -1
  deriving DecidableEq, Repr

/-- Modelled from the spec: `Object::setOrientation` is not among the sources; by the
comment in `Object.h` it "changes object facing direction". -/
def setOrientation (objects : ObjectStore) (h : Nat) (value : Orientation) : ObjectStore :=
  Function.update objects h { objects h with orientation := value }

/-- The statement `object->setScript(new VM(intFile, object))`: a new VM instance bound to
the object becomes the object's script. -/
def World.setScriptNewVM (world : World) (object : Nat) (intFile : Nat) : World :=
  { world with
    vms := world.vms ++ [{ program := intFile, owner := some object }]
    objects := Function.update world.objects object
      { world.objects object with script := some world.vms.length } }

/-- `Location::moveObjectToHexagon(object, hexagon)`: the object leaves the list of its
old hexagon (first occurrence), if it has one, and is appended to the list of the new
one. -/
def Location.moveObjectToHexagon (world : World) (object hexagon : Nat) : World :=
  let world1 : World :=
    match (world.objects object).hexagon with
    | some oldHexagon =>
      { world with
        hexagonObjects := Function.update world.hexagonObjects oldHexagon
          ((world.hexagonObjects oldHexagon).erase object) }
    | none => world
  { world1 with
    objects := Function.update world1.objects object
      { world1.objects object with hexagon := some hexagon }
    hexagonObjects := Function.update world1.hexagonObjects hexagon
      (world1.hexagonObjects hexagon ++ [object]) }

/-- The two script statements of the loop body in `Location::setLocation`
(`if (mapObject->scriptId() > 0) ...` and `if (mapObject->mapScriptId() > 0 &&
mapObject->mapScriptId() != mapObject->scriptId()) ...`) for the object with handle
`object`.  `intFileType` stands for `ResourceManager::intFileType` (the program, or `none`
for null). -/
def Location.setLocation.attachScripts (intFileType : Int → Option Nat) (world : World)
    (object : Nat) (mapObject : MapObject) : World :=
  let world : World :=
    if mapObject.scriptId > 0 then
      match intFileType mapObject.scriptId with
      | some intFile => world.setScriptNewVM object intFile
      | none => world
    else world
  let world : World :=
    if mapObject.mapScriptId > 0 && mapObject.mapScriptId != mapObject.scriptId then
      match intFileType mapObject.mapScriptId with
      | some intFile => world.setScriptNewVM object intFile
      | none => world
    else world
  world

/-- The body of the loop over the map objects in `Location::setLocation`, for one map
object.  `createObject` stands for `ObjectFactory::createObject` (the object it creates, or
`none` for null).  The copying of the frame id, elevation, light, flags, exit-grid data and
container contents concerns members outside this embedding. -/
def Location.setLocation.loadObject (createObject : Nat → Option GameObject)
    (intFileType : Int → Option Nat) (st : World × Location) (mapObject : MapObject) :
    World × Location :=
  match createObject mapObject.PID with
  | none => st
  | some created =>
    let object := st.1.objectCount
    let world : World :=
      { st.1 with
        objects := Function.update st.1.objects object created
        objectCount := object + 1 }
    let world : World :=
      { world with
        objects := setOrientation world.objects object
          (Orientation.ofUnsignedChar mapObject.orientation) }
    let world := Location.setLocation.attachScripts intFileType world object mapObject
    let world := Location.moveObjectToHexagon world object mapObject.hexPosition
    (world, { st.2 with _objects := st.2._objects ++ [object] })

/-- The loop over the map objects in `Location::setLocation`, entered with `_objects`
cleared and a fresh hexagon grid. -/
def Location.setLocation.loadObjects (createObject : Nat → Option GameObject)
    (intFileType : Int → Option Nat) (world : World) (loc : Location)
    (mapObjects : List MapObject) : World × Location :=
  mapObjects.foldl (Location.setLocation.loadObject createObject intFileType)
    ({ world with hexagonObjects := fun _ => [] }, { loc with _objects := [] })

/-- Specification side of the script attachment in `setLocation`: the program of the
script VM that the loop body leaves attached to a placed object, if it attaches one: the
one for `mapScriptId` if that id is positive, differs from `scriptId` and its program
loads; otherwise the one for `scriptId` if that is positive and loads; otherwise none. -/
def placedProgram (intFileType : Int → Option Nat) (mapObject : MapObject) : Option Nat :=
  match (if mapObject.mapScriptId > 0 ∧ mapObject.mapScriptId ≠ mapObject.scriptId then
          intFileType mapObject.mapScriptId else none) with
  | some intFile => some intFile
  | none => if mapObject.scriptId > 0 then intFileType mapObject.scriptId else none

/-- `Location::destroyObject(object)`.  `destroy_p_proc` stands for the effect of the
object's `destroy_p_proc()` on the engine state.  The result is `none` when the object has
no hexagon (a null dereference in the source). -/
def Location.destroyObject (destroy_p_proc : Nat → World × Location → World × Location)
    (st : World × Location) (object : Nat) : Option (World × Location) :=
  match (st.1.objects object).hexagon with
  | none => none
  | some objectsAtHex =>
    let st1 := destroy_p_proc object st
    let world : World :=
      { st1.1 with
        hexagonObjects := Function.update st1.1.hexagonObjects objectsAtHex
          ((st1.1.hexagonObjects objectsAtHex).erase object) }
    let loc : Location :=
      if st1.2._objectUnderCursor == some object then
        { st1.2 with _objectUnderCursor := none }
      else st1.2
    some (world, { loc with _objects := loc._objects.erase object })

/-- A call that `Location::handleAction` makes on an object. -/
inductive ActionCall
  | description_p_proc (object : Nat)
  | talk_p_proc (object : Nat)
  | setActionAnimation (object : Nat) (animation : String)
  | addEventHandler (eventName : String) (object : Nat)
  deriving DecidableEq, Repr

/-- `Location::handleAction(object, action)` for a (non-null) object: the result, the
objects it leaves, and the calls it makes.  `player` is `Game::getInstance()->player()`. -/
def Location.handleAction (objects : ObjectStore) (player : Nat) (object : Nat)
    (action : Icon) : Except Exception Unit × ObjectStore × List ActionCall :=
  match action with
  | .LOOK => (.ok (), objects, [.description_p_proc object])
  | .USE =>
    (.ok (), objects,
      [.setActionAnimation player "al", .addEventHandler "actionFrame" object])
  | .ROTATE =>
    match dynamic_cast .DudeObject objects (some object) with
    | none =>
      (.error ⟨"Location::handleAction() - only Dude can be rotated"⟩, objects, [])
    | some dude =>
      let orientation := (objects dude).orientation.toUnsignedChar + 1
      let orientation := if orientation > 5 then 0 else orientation
      (.ok (), setOrientation objects dude (Orientation.ofUnsignedChar orientation), [])
  | .TALK =>
    match dynamic_cast .CritterObject objects (some object) with
    | some critter => (.ok (), objects, [.talk_p_proc critter])
    | none =>
      (.error ⟨"Location::handleAction() - can talk only with critters!"⟩, objects, [])
  | _ => (.ok (), objects, [])

/-! ## The rotate keys (`Location::onKeyDown`) -/

/-- The key codes that `Location::onKeyDown` switches on; `other` is any other key. -/
inductive KeyCode
  | SDLK_m
  | SDLK_COMMA
  | SDLK_PERIOD
  | SDLK_HOME
  | SDLK_PLUS
  | SDLK_KP_PLUS
  | SDLK_MINUS
  | SDLK_KP_MINUS
  | SDLK_1
  | SDLK_2
  | SDLK_3
  | SDLK_4
  | SDLK_5
  | SDLK_6
  | SDLK_7
  | SDLK_8
  | SDLK_LEFT
  | SDLK_RIGHT
  | SDLK_UP
  | SDLK_DOWN
  | other
  deriving DecidableEq, Repr

/-- `Location::onKeyDown(event)` for the key code of the event: the objects it leaves.
`player` is `Game::getInstance()->player()`.  The keys other than COMMA and PERIOD change
the cursor mode or the camera, or do nothing; they leave the objects as they are. -/
def Location.onKeyDown (objects : ObjectStore) (player : Nat) (keyCode : KeyCode) :
    ObjectStore :=
  match keyCode with
  | .SDLK_COMMA =>
    setOrientation objects player
      (Orientation.ofUnsignedChar ((objects player).orientation.toUnsignedChar + 5))
  | .SDLK_PERIOD =>
    setOrientation objects player
      (Orientation.ofUnsignedChar ((objects player).orientation.toUnsignedChar + 1))
  | _ => objects

/-- The objects left by pressing a sequence of keys, one `onKeyDown` each. -/
def Location.onKeysDown (objects : ObjectStore) (player : Nat) (keyCodes : List KeyCode) :
    ObjectStore :=
  keyCodes.foldl (fun objs keyCode => Location.onKeyDown objs player keyCode) objects

/-! ## Dropping a dragged item on the armor slot (`UI/InventoryItem.cpp`, `UI/ItemsList.cpp`) -/

/-- A screen point (`Point`). -/
structure Point where
  x : Int := 0
  y : Int := 0
  deriving DecidableEq, Repr

/-- A size (`Size`). -/
structure Size where
  width : Int := 0
  height : Int := 0
  deriving DecidableEq, Repr

/-- `InventoryItem::Type`. -/
inductive InventoryItem.Type
  | INVENTORY
  | SLOT
  | DRAG
  deriving DecidableEq, Repr

/-- The members of a `UI::InventoryItem` that the embedded code reads or writes: the item
object shown (`_item`, possibly null), the type, the value of `position()`, and the value
of `Base::size()`. -/
structure InventoryItem where
  _item : ObjectPtr := none
  _type : InventoryItem.Type := .INVENTORY
  position : Point := {}
  baseSize : Size := {}
  deriving DecidableEq, Repr

/-- `InventoryItem::size()`. -/
def InventoryItem.size (item : InventoryItem) : Size :=
  match item._type with
  | .INVENTORY => { width := 70, height := 49 }
  | .SLOT => { width := 90, height := 63 }
  | _ => item.baseSize

/-- The members of a `UI::ItemsList` that the embedded code reads or writes.  `_items` is
the vector of item objects the list points to (the inventory); `_draggedItem` points into
`_inventoryItems` and is kept as an index (`none` for null). -/
structure ItemsList where
  _items : List ObjectPtr := []
  _inventoryItems : List InventoryItem := []
  _draggedItem : Option Nat := none
  _slotOffset : Nat := 0
  _slotsNumber : Nat := 7
  deriving DecidableEq, Repr

/-- `ItemsList::update()`: `_inventoryItems` is rebuilt from the items at the indices `i`
from `_slotOffset` on, while `i < items()->size()` and `i != _slotOffset + _slotsNumber`
(32-bit unsigned arithmetic). -/
def ItemsList.update (list : ItemsList) : ItemsList :=
  let stop := (list._slotOffset + list._slotsNumber) % 2 ^ 32
  let count := if stop >= list._slotOffset then stop - list._slotOffset
    else list._items.length - list._slotOffset
  { list with
    _inventoryItems := ((list._items.drop list._slotOffset).take count).map
      (fun item => { _item := item }) }

/-- `ItemsList::addItem(item, amount)`. -/
def ItemsList.addItem (list : ItemsList) (item : InventoryItem) : ItemsList :=
  ItemsList.update { list with _items := list._items ++ [item._item] }

/-- `ItemsList::removeItem(item, amount)`: the first element equal to `item->item()` is
erased. -/
def ItemsList.removeItem (list : ItemsList) (item : InventoryItem) : ItemsList :=
  ItemsList.update { list with _items := list._items.erase item._item }

/-- `ItemsList::draggedItem()`, dereferenced: the inventory item `_draggedItem` points to,
`none` when the pointer is null. -/
def ItemsList.draggedItem (list : ItemsList) : Option InventoryItem :=
  match list._draggedItem with
  | none => none
  | some index => list._inventoryItems[index]?

/-- What `InventoryItem::onArmorDragStop` reads and writes: the armor slot (`this`), the
items list that is the target of the event (`none` when the target is not an `ItemsList`),
and the armor slot of the player. -/
structure ArmorDrop where
  slot : InventoryItem
  itemsList : Option ItemsList
  playerArmorSlot : ObjectPtr
  deriving DecidableEq, Repr

/-- `InventoryItem::onArmorDragStop(event)` for an event at `eventPosition`.  `inRect`
stands for `Rect::inRect(position, topLeft, size)`.  The result is `none` when the target
list has no dragged item (a null dereference in the source). -/
def InventoryItem.onArmorDragStop (inRect : Point → Point → Size → Bool)
    (objects : ObjectStore) (eventPosition : Point) (st : ArmorDrop) : Option ArmorDrop :=
  if !inRect eventPosition st.slot.position st.slot.size then some st
  else
    match st.itemsList with
    | none => some st
    | some itemsList =>
      match itemsList.draggedItem with
      | none => none
      | some draggedItem =>
        let itemObject := draggedItem._item
        let itemsList := itemsList.removeItem draggedItem
        let itemsList := if st.slot._item.isSome then itemsList.addItem st.slot else itemsList
        let slot := { st.slot with _item := itemObject }
        let playerArmorSlot :=
          match dynamic_cast .ArmorItemObject objects itemObject with
          | some armor => some armor
          | none => st.playerArmorSlot
        some { slot := slot, itemsList := some itemsList, playerArmorSlot := playerArmorSlot }

/-! ## Opcode handlers: theorems -/

theorem dynamic_cast_isSome (target : ObjectClass) (objects : ObjectStore) (h : Nat) :
    (dynamic_cast target objects (some h)).isSome = (objects h).cls.isA target := by
  cases hc : (objects h).cls.isA target <;> simp [dynamic_cast, hc]

theorem dynamic_cast_none (target : ObjectClass) (objects : ObjectStore) :
    dynamic_cast target objects none = none := rfl

theorem dynamic_cast_some (target : ObjectClass) (objects : ObjectStore) (h : Nat) :
    dynamic_cast target objects (some h)
      = if (objects h).cls.isA target then some h else none := rfl

theorem subtype_eq_itemSubtype (objects : ObjectStore) (h : Nat) :
    Opcode80C9Handler.subtype objects (some h) = itemSubtype (objects h).cls := by
  simp only [Opcode80C9Handler.subtype, dynamic_cast_isSome]
  generalize (objects h).cls = c
  cases c <;> decide

theorem subtype_null (objects : ObjectStore) :
    Opcode80C9Handler.subtype objects none = -1 := by
  simp [Opcode80C9Handler.subtype, dynamic_cast]

/-- C1: on a data stack whose top is an object reference, opcode 80C9 raises nothing, and
the stack it leaves is the old stack with the top reference replaced by one integer: the
depth is the same and everything below the top is unchanged. -/
theorem Opcode80C9_arity (objects : ObjectStore) (day : Nat) (object : ObjectPtr)
    (rest : VMStack) :
    (Opcode80C9Handler._run ⟨.objectRef object :: rest, objects, day⟩).error = none ∧
    (∃ i : Int, (Opcode80C9Handler._run ⟨.objectRef object :: rest, objects, day⟩).vm.dataStack
      = .integer i :: rest) ∧
    (Opcode80C9Handler._run ⟨.objectRef object :: rest, objects, day⟩).vm.dataStack.length
      = (Value.objectRef object :: rest).length ∧
    (Opcode80C9Handler._run ⟨.objectRef object :: rest, objects, day⟩).vm.dataStack.tail
      = rest := by
  simp [Opcode80C9Handler._run, VMStack.popObject, VMStack.pop, VMStack.push]

/-- C2: the integer pushed by opcode 80C9 is the subtype number of the kind of the popped
object (0 armor, 1 container, 2 drug, 3 weapon, 4 ammo, 5 misc item, 6 key, -1 any other
kind), it is -1 for the null reference, and it always lies in -1..6. -/
theorem Opcode80C9_result (objects : ObjectStore) (day : Nat) (rest : VMStack) :
    (∀ h : Nat, (Opcode80C9Handler._run ⟨.objectRef (some h) :: rest, objects, day⟩).vm.dataStack
      = .integer (itemSubtype (objects h).cls) :: rest) ∧
    (Opcode80C9Handler._run ⟨.objectRef none :: rest, objects, day⟩).vm.dataStack
      = .integer (-1) :: rest ∧
    (∀ object : ObjectPtr, ∃ i : Int,
      (Opcode80C9Handler._run ⟨.objectRef object :: rest, objects, day⟩).vm.dataStack
        = .integer i :: rest ∧ i ∈ [-1, 0, 1, 2, 3, 4, 5, 6]) ∧
    itemSubtype .ArmorItemObject = 0 ∧ itemSubtype .ContainerItemObject = 1 ∧
    itemSubtype .DrugItemObject = 2 ∧ itemSubtype .WeaponItemObject = 3 ∧
    itemSubtype .AmmoItemObject = 4 ∧ itemSubtype .MiscItemObject = 5 ∧
    itemSubtype .KeyItemObject = 6 ∧
    (∀ c : ObjectClass, c ∉ [ObjectClass.ArmorItemObject, .ContainerItemObject,
      .DrugItemObject, .WeaponItemObject, .AmmoItemObject, .MiscItemObject, .KeyItemObject] →
      itemSubtype c = -1) := by
  have hrun : ∀ object : ObjectPtr,
      (Opcode80C9Handler._run ⟨.objectRef object :: rest, objects, day⟩).vm.dataStack
        = .integer (Opcode80C9Handler.subtype objects object) :: rest := by
    intro object
    simp [Opcode80C9Handler._run, VMStack.popObject, VMStack.pop, VMStack.push]
  refine ⟨?_, ?_, ?_, rfl, rfl, rfl, rfl, rfl, rfl, rfl, ?_⟩
  · intro h
    rw [hrun, subtype_eq_itemSubtype]
  · rw [hrun, subtype_null]
  · intro object
    refine ⟨_, hrun object, ?_⟩
    cases object with
    | none => rw [subtype_null]; decide
    | some h =>
      rw [subtype_eq_itemSubtype]
      cases (objects h).cls <;> decide
  · intro c hc
    cases c <;> first | rfl | (exfalso; revert hc; decide)

theorem Opcode8131_run_ref (objects : ObjectStore) (day : Nat) (h : Nat) (rest : VMStack) :
    Opcode8131Handler._run ⟨.objectRef (some h) :: rest, objects, day⟩
      = if (objects h).cls.isA .DoorSceneryObject
          || (objects h).cls.isA .ContainerItemObject then
          ⟨⟨rest, setOpened objects h true, day⟩, none⟩
        else
          ⟨⟨rest, objects, day⟩, some (.scriptError "obj_open: object is not openable type!")⟩ := by
  simp only [Opcode8131Handler._run, VMStack.popObject, VMStack.pop, dynamic_cast_some]
  cases hd : (objects h).cls.isA .DoorSceneryObject <;>
    cases hc : (objects h).cls.isA .ContainerItemObject <;> simp

theorem Opcode8131_run_null (objects : ObjectStore) (day : Nat) (rest : VMStack) :
    Opcode8131Handler._run ⟨.objectRef none :: rest, objects, day⟩
      = ⟨⟨rest, objects, day⟩, some (.scriptError "obj_open: object is NULL")⟩ := by
  simp [Opcode8131Handler._run, VMStack.popObject, VMStack.pop]

/-- C3: on a data stack whose top is a reference to a door or to a container, opcode 8131
raises nothing, leaves exactly the values below the top (depth one less, nothing pushed),
leaves that object with its opened flag true and otherwise as it was, and leaves every
other object as it was. -/
theorem Opcode8131_opens (objects : ObjectStore) (day : Nat) (h : Nat) (rest : VMStack)
    (hkind : (objects h).cls.isA .DoorSceneryObject = true
      ∨ (objects h).cls.isA .ContainerItemObject = true) :
    (Opcode8131Handler._run ⟨.objectRef (some h) :: rest, objects, day⟩).error = none ∧
    (Opcode8131Handler._run ⟨.objectRef (some h) :: rest, objects, day⟩).vm.dataStack = rest ∧
    (Opcode8131Handler._run ⟨.objectRef (some h) :: rest, objects, day⟩).vm.dataStack.length + 1
      = (Value.objectRef (some h) :: rest).length ∧
    ((Opcode8131Handler._run ⟨.objectRef (some h) :: rest, objects, day⟩).vm.objects h).opened
      = true ∧
    (Opcode8131Handler._run ⟨.objectRef (some h) :: rest, objects, day⟩).vm.objects h
      = { objects h with opened := true } ∧
    (∀ other : Nat, other ≠ h →
      (Opcode8131Handler._run ⟨.objectRef (some h) :: rest, objects, day⟩).vm.objects other
        = objects other) := by
  have hor : ((objects h).cls.isA .DoorSceneryObject
      || (objects h).cls.isA .ContainerItemObject) = true := by
    rcases hkind with hd | hc <;> simp [*]
  rw [Opcode8131_run_ref, if_pos hor]
  refine ⟨rfl, rfl, rfl, ?_, ?_, ?_⟩
  · simp [setOpened]
  · simp [setOpened]
  · intro other hne
    simp [setOpened, Function.update_noteq hne]

theorem Opcode8131_opens_witness :
    ((fun _ => ({ cls := .DoorSceneryObject } : GameObject)) 1).cls.isA .DoorSceneryObject = true ∧
    ((Opcode8131Handler._run
        ⟨[.objectRef (some 1), .integer 7], fun _ => { cls := .DoorSceneryObject }, 3⟩).vm.objects
      1).opened = true :=
  ⟨by decide, (Opcode8131_opens (fun _ => { cls := .DoorSceneryObject }) 3 1 [.integer 7]
    (Or.inl (by decide))).2.2.2.1⟩

/-- C4: on a data stack whose top is an object reference, opcode 8131 raises an error
exactly when the reference is null or refers to an object that is neither a door nor a
container; and a run that raises an error, on any data stack, leaves every object (so every
opened flag) as it was. -/
theorem Opcode8131_fails_iff (objects : ObjectStore) (day : Nat) (object : ObjectPtr)
    (rest : VMStack) :
    ((Opcode8131Handler._run ⟨.objectRef object :: rest, objects, day⟩).error ≠ none ↔
      (object = none ∨ ∃ h : Nat, object = some h
        ∧ (objects h).cls.isA .DoorSceneryObject = false
        ∧ (objects h).cls.isA .ContainerItemObject = false)) ∧
    (∀ vm : VM, (Opcode8131Handler._run vm).error ≠ none →
      (Opcode8131Handler._run vm).vm.objects = vm.objects) := by
  constructor
  · cases object with
    | none => simp [Opcode8131_run_null]
    | some h =>
      rw [Opcode8131_run_ref]
      cases hd : (objects h).cls.isA .DoorSceneryObject <;>
        cases hc : (objects h).cls.isA .ContainerItemObject <;> simp [hd, hc]
  · intro vm
    obtain ⟨stack, objs, d⟩ := vm
    cases stack with
    | nil => intro _; rfl
    | cons v rest =>
      cases v with
      | objectRef object =>
        cases object with
        | none => intro _; rw [Opcode8131_run_null]
        | some h =>
          rw [Opcode8131_run_ref]
          cases hd : (objs h).cls.isA .DoorSceneryObject <;>
            cases hc : (objs h).cls.isA .ContainerItemObject <;> simp
      | _ => intro _; rfl

theorem Opcode8131_fails_iff_witness :
    (Opcode8131Handler._run
        ⟨[.objectRef none], fun _ => { cls := .DoorSceneryObject }, 0⟩).error ≠ none ∧
    (Opcode8131Handler._run
        ⟨[.objectRef none], fun _ => { cls := .DoorSceneryObject }, 0⟩).vm.objects
      = fun _ => { cls := .DoorSceneryObject } :=
  ⟨by decide, (Opcode8131_fails_iff (fun _ => { cls := .DoorSceneryObject }) 0 none []).2
    ⟨[.objectRef none], fun _ => { cls := .DoorSceneryObject }, 0⟩ (by decide)⟩

/-- C5: on every data stack, the empty one included, opcode 8119 raises nothing and leaves
the old stack with one integer pushed on top, the day of the game time: the depth grows by
one and the values already present are unchanged. -/
theorem Opcode8119_pushes_day (vm : VM) :
    (Opcode8119Handler._run vm).error = none ∧
    (Opcode8119Handler._run vm).vm.dataStack
      = .integer (Int.ofNat vm.gameTimeDay) :: vm.dataStack ∧
    (Opcode8119Handler._run vm).vm.dataStack.length = vm.dataStack.length + 1 ∧
    (Opcode8119Handler._run vm).vm.dataStack.tail = vm.dataStack ∧
    (Opcode8119Handler._run ⟨[], vm.objects, vm.gameTimeDay⟩).vm.dataStack
      = [.integer (Int.ofNat vm.gameTimeDay)] ∧
    (Opcode8119Handler._run vm).vm.objects = vm.objects := by
  simp [Opcode8119Handler._run, VMStack.push]

/-! ## Map variables: theorems -/

theorem Location.MVAR_of_lt (loc : Location) (number : Nat) (h : number < loc._MVARS.length) :
    loc.MVAR number = .ok (loc._MVARS.get ⟨number, h⟩) := by
  unfold Location.MVAR
  rw [dif_neg (Nat.not_le.mpr h)]

theorem Location.MVAR_of_ge (loc : Location) (number : Nat) (h : number ≥ loc._MVARS.length) :
    loc.MVAR number
      = .error ⟨"Location::MVAR(num) - num out of range: " ++ toString (toInt number)⟩ := by
  unfold Location.MVAR
  rw [dif_pos h]

/-- C6: `Location::MVAR(n)` and `Location::setMVAR(n, v)` throw the out-of-range exception
exactly when `n` is at least the number of map variables; below it `MVAR(n)` returns slot
`n` itself and `setMVAR` succeeds; a throwing `setMVAR` leaves the location, so every map
variable and the size of the table, unchanged. -/
theorem Location.MVAR_out_of_range (loc : Location) (number : Nat) (value : Int) :
    (loc.MVAR number
        = .error ⟨"Location::MVAR(num) - num out of range: " ++ toString (toInt number)⟩
      ↔ number ≥ loc._MVARS.length) ∧
    ((loc.setMVAR number value).1
        = .error ⟨"Location::setMVAR(num, value) - num out of range: "
            ++ toString (toInt number)⟩
      ↔ number ≥ loc._MVARS.length) ∧
    (number < loc._MVARS.length →
      loc.MVAR number = .ok (loc._MVARS.getD number 0) ∧ (loc.setMVAR number value).1 = .ok ()) ∧
    (number ≥ loc._MVARS.length → (loc.setMVAR number value).2 = loc) := by
  refine ⟨?_, ?_, ?_, ?_⟩
  · constructor
    · intro herr
      by_contra hlt
      rw [Location.MVAR_of_lt loc number (Nat.not_le.mp hlt)] at herr
      cases herr
    · exact Location.MVAR_of_ge loc number
  · unfold Location.setMVAR
    by_cases hge : number ≥ loc._MVARS.length
    · simp [hge]
    · simp [hge]
  · intro hlt
    constructor
    · rw [Location.MVAR_of_lt loc number hlt]
      simp [List.getElem?_eq_getElem hlt]
    · simp [Location.setMVAR, Nat.not_le.mpr hlt]
  · intro hge
    simp [Location.setMVAR, hge]

theorem Location.MVAR_out_of_range_witness :
    (2 ≥ ({ _MVARS := [10, 20] } : Location)._MVARS.length) ∧
    (({ _MVARS := [10, 20] } : Location).setMVAR 2 5).2 = { _MVARS := [10, 20] } :=
  ⟨by decide, (Location.MVAR_out_of_range { _MVARS := [10, 20] } 2 5).2.2.2 (by decide)⟩

/-- C8: for an index `n` below the number of map variables, `setMVAR(n, v)` succeeds, and
afterwards `MVAR(n)` returns `v`, `MVAR(m)` returns what it returned before for every
other index `m`, and the number of map variables is the same. -/
theorem Location.setMVAR_frame (loc : Location) (number : Nat) (value : Int)
    (h : number < loc._MVARS.length) :
    (loc.setMVAR number value).1 = .ok () ∧
    (loc.setMVAR number value).2.MVAR number = .ok value ∧
    (∀ m : Nat, m ≠ number → (loc.setMVAR number value).2.MVAR m = loc.MVAR m) ∧
    (loc.setMVAR number value).2._MVARS.length = loc._MVARS.length := by
  have hset : loc.setMVAR number value
      = (.ok (), { loc with _MVARS := loc._MVARS.set number value }) := by
    simp [Location.setMVAR, Nat.not_le.mpr h]
  rw [hset]
  refine ⟨rfl, ?_, ?_, ?_⟩
  · rw [Location.MVAR_of_lt _ number (by simpa using h)]
    simp
  · intro m hm
    by_cases hlt : m < loc._MVARS.length
    · rw [Location.MVAR_of_lt _ m (by simpa using hlt), Location.MVAR_of_lt loc m hlt]
      simp [List.getElem_set_ne (Ne.symm hm)]
    · have hge : m ≥ loc._MVARS.length := Nat.not_lt.mp hlt
      rw [Location.MVAR_of_ge _ m (by simpa using hge), Location.MVAR_of_ge loc m hge]
  · simp

theorem Location.setMVAR_frame_witness :
    (1 < ({ _MVARS := [10, 20, 30] } : Location)._MVARS.length) ∧
    (({ _MVARS := [10, 20, 30] } : Location).setMVAR 1 5).2.MVAR 1 = .ok 5 :=
  ⟨by decide, (Location.setMVAR_frame { _MVARS := [10, 20, 30] } 1 5 (by decide)).2.1⟩

/-! ## Game variables: theorems -/

theorem Game.initGVARS_of_pos (gam : GamGVARS) (game : Game) (h : 0 < game._GVARS.length) :
    Game._initGVARS gam game = game := by
  simp [Game._initGVARS, h]

theorem Game.initGVARS_of_empty (gam : GamGVARS) (game : Game) (h : game._GVARS.length = 0) :
    (Game._initGVARS gam game)._GVARS = gam.map Prod.snd := by
  have hfold : ∀ (l : GamGVARS) (init : List Int),
      l.foldl (fun acc gvar => acc ++ [gvar.2]) init = init ++ l.map Prod.snd := by
    intro l
    induction l with
    | nil => intro init; simp
    | cons x xs ih => intro init; simp [ih]
  have hnil : game._GVARS = [] := List.length_eq_zero.mp h
  simp [Game._initGVARS, hfold, hnil]

theorem Game.initGVARS_idem (gam : GamGVARS) (game : Game) :
    Game._initGVARS gam (Game._initGVARS gam game) = Game._initGVARS gam game := by
  by_cases h : 0 < (Game._initGVARS gam game)._GVARS.length
  · exact Game.initGVARS_of_pos gam _ h
  · have h0 : game._GVARS.length = 0 := by
      by_contra hne
      have hpos : 0 < game._GVARS.length := Nat.pos_of_ne_zero hne
      rw [Game.initGVARS_of_pos gam game hpos] at h
      exact h hpos
    have hnil : game._GVARS = [] := List.length_eq_zero.mp h0
    have hload : (Game._initGVARS gam game)._GVARS = [] :=
      List.length_eq_zero.mp (Nat.eq_zero_of_not_pos h)
    have hsame : Game._initGVARS gam game = game := by
      have hfold := hload
      simp only [Game._initGVARS, h0, Nat.lt_irrefl, if_false] at hfold ⊢
      rw [hfold, ← hnil]
    rw [hsame]
    exact hsame

theorem Game.GVAR_fst_of_lt (gam : GamGVARS) (game : Game) (number : Nat)
    (h : number < (Game._initGVARS gam game)._GVARS.length) :
    (Game.GVAR gam game number).1 = .ok ((Game._initGVARS gam game)._GVARS.get ⟨number, h⟩) := by
  unfold Game.GVAR
  simp only
  rw [dif_neg (Nat.not_le.mpr h)]

theorem Game.GVAR_fst_of_ge (gam : GamGVARS) (game : Game) (number : Nat)
    (h : number ≥ (Game._initGVARS gam game)._GVARS.length) :
    (Game.GVAR gam game number).1
      = .error ⟨"Game::GVAR(num) - num out of range: " ++ toString number⟩ := by
  unfold Game.GVAR
  simp only
  rw [dif_pos h]

theorem Game.GVAR_snd (gam : GamGVARS) (game : Game) (number : Nat) :
    (Game.GVAR gam game number).2 = Game._initGVARS gam game := by
  unfold Game.GVAR
  simp only
  split <;> rfl

theorem Game.GVAR_fst_congr (gam : GamGVARS) (game1 game2 : Game) (number : Nat)
    (h : Game._initGVARS gam game1 = Game._initGVARS gam game2) :
    (Game.GVAR gam game1 number).1 = (Game.GVAR gam game2 number).1 := by
  by_cases hlt : number < (Game._initGVARS gam game1)._GVARS.length
  · rw [Game.GVAR_fst_of_lt gam game1 number hlt,
      Game.GVAR_fst_of_lt gam game2 number (h ▸ hlt)]
    simp [h]
  · have hge := Nat.not_lt.mp hlt
    rw [Game.GVAR_fst_of_ge gam game1 number hge,
      Game.GVAR_fst_of_ge gam game2 number (h ▸ hge)]

/-- C7: `Game::GVAR(n)` and `Game::setGVAR(n, v)` throw the out-of-range exception exactly
when `n` is at least the number of game globals held after the lazy load of `_initGVARS`;
below it `GVAR(n)` returns slot `n` itself; a throwing `setGVAR` leaves the table as the
lazy load left it, and every `GVAR(m)` returns afterwards what it would have returned
before. -/
theorem Game.GVAR_out_of_range (gam : GamGVARS) (game : Game) (number : Nat) (value : Int) :
    ((Game.GVAR gam game number).1
        = .error ⟨"Game::GVAR(num) - num out of range: " ++ toString number⟩
      ↔ number ≥ (Game._initGVARS gam game)._GVARS.length) ∧
    ((Game.setGVAR gam game number value).1
        = .error ⟨"Game::setGVAR(num, value) - num out of range: " ++ toString number⟩
      ↔ number ≥ (Game._initGVARS gam game)._GVARS.length) ∧
    (number < (Game._initGVARS gam game)._GVARS.length →
      (Game.GVAR gam game number).1 = .ok ((Game._initGVARS gam game)._GVARS.getD number 0)
      ∧ (Game.setGVAR gam game number value).1 = .ok ()) ∧
    (number ≥ (Game._initGVARS gam game)._GVARS.length →
      (Game.setGVAR gam game number value).2 = Game._initGVARS gam game
      ∧ ∀ m : Nat, (Game.GVAR gam (Game.setGVAR gam game number value).2 m).1
          = (Game.GVAR gam game m).1) := by
  have hsetge : number ≥ (Game._initGVARS gam game)._GVARS.length →
      (Game.setGVAR gam game number value).2 = Game._initGVARS gam game := by
    intro hge
    simp [Game.setGVAR, hge]
  refine ⟨?_, ?_, ?_, ?_⟩
  · constructor
    · intro herr
      by_contra hlt
      rw [Game.GVAR_fst_of_lt gam game number (Nat.not_le.mp hlt)] at herr
      cases herr
    · exact Game.GVAR_fst_of_ge gam game number
  · unfold Game.setGVAR
    by_cases hge : number ≥ (Game._initGVARS gam game)._GVARS.length
    · simp [hge]
    · simp [hge]
  · intro hlt
    constructor
    · rw [Game.GVAR_fst_of_lt gam game number hlt]
      simp [List.getElem?_eq_getElem hlt]
    · simp [Game.setGVAR, Nat.not_le.mpr hlt]
  · intro hge
    refine ⟨hsetge hge, ?_⟩
    intro m
    apply Game.GVAR_fst_congr
    rw [hsetge hge, Game.initGVARS_idem]

theorem Game.GVAR_out_of_range_witness :
    (3 ≥ (Game._initGVARS [("a", 7), ("b", 8)] { _GVARS := [] })._GVARS.length) ∧
    (Game.setGVAR [("a", 7), ("b", 8)] { _GVARS := [] } 3 5).2
      = Game._initGVARS [("a", 7), ("b", 8)] { _GVARS := [] } :=
  ⟨by decide, ((Game.GVAR_out_of_range [("a", 7), ("b", 8)] { _GVARS := [] } 3 5).2.2.2
    (by decide)).1⟩

theorem Game.step_of_pos (gam : GamGVARS) (game : Game) (h : 0 < game._GVARS.length)
    (c : GVarCall) :
    (Game.step gam game c)._GVARS
      = match c with
        | .setGVAR number value => game._GVARS.set number value
        | .GVAR _ => game._GVARS := by
  cases c with
  | setGVAR number value =>
    simp only [Game.step, Game.setGVAR, Game.initGVARS_of_pos gam game h]
    by_cases hge : number ≥ game._GVARS.length
    · simp [hge, List.set_eq_of_length_le hge]
    · simp [hge]
  | GVAR number =>
    simp only [Game.step, Game.GVAR_snd, Game.initGVARS_of_pos gam game h]

/-- C9: once the game-global table is non-empty, `_initGVARS` leaves the game as it is, and
after any sequence of `setGVAR` and `GVAR` calls (throwing ones included) the table has the
size it had and `GVAR(n)`, for every `n` below that size, returns the value most recently
written to `n` by a `setGVAR` of the sequence, or the value `n` held at the start if none
wrote to it. -/
theorem Game.GVAR_after_calls (gam : GamGVARS) (game : Game) (calls : List GVarCall)
    (h : 0 < game._GVARS.length) :
    Game._initGVARS gam game = game ∧
    Game._initGVARS gam (Game.afterCalls gam game calls) = Game.afterCalls gam game calls ∧
    (Game.afterCalls gam game calls)._GVARS.length = game._GVARS.length ∧
    (∀ n : Nat, n < game._GVARS.length →
      (Game.GVAR gam (Game.afterCalls gam game calls) n).1
        = .ok ((lastWritten n calls).getD (game._GVARS.getD n 0))) := by
  refine ⟨Game.initGVARS_of_pos gam game h, ?_⟩
  induction calls generalizing game with
  | nil =>
    refine ⟨Game.initGVARS_of_pos gam game h, rfl, ?_⟩
    intro n hn
    have hn1 : n < (Game._initGVARS gam game)._GVARS.length := by
      rw [Game.initGVARS_of_pos gam game h]; exact hn
    simp only [Game.afterCalls, List.foldl_nil]
    rw [Game.GVAR_fst_of_lt gam game n hn1]
    simp [lastWritten, Game.initGVARS_of_pos gam game h, List.getElem?_eq_getElem hn]
  | cons c cs ih =>
    have hstep := Game.step_of_pos gam game h c
    have hlen : (Game.step gam game c)._GVARS.length = game._GVARS.length := by
      rw [hstep]; cases c <;> simp
    have ih1 := ih (Game.step gam game c) (by rw [hlen]; exact h)
    have hfold : Game.afterCalls gam game (c :: cs)
        = Game.afterCalls gam (Game.step gam game c) cs := rfl
    rw [hfold]
    refine ⟨ih1.1, by rw [ih1.2.1, hlen], ?_⟩
    intro n hn
    rw [ih1.2.2 n (by rw [hlen]; exact hn)]
    congr 1
    cases c with
    | setGVAR m value =>
      simp only [lastWritten]
      cases hw : lastWritten n cs with
      | some w => simp
      | none =>
        by_cases hm : m = n
        · subst hm
          simp [hstep, List.getElem?_set_self, hn]
        · simp [hstep, hm, List.getElem?_set_ne hm]
    | GVAR m =>
      simp only [lastWritten, hstep]

theorem Game.GVAR_after_calls_witness :
    (0 < ({ _GVARS := [1, 2, 3] } : Game)._GVARS.length) ∧
    (Game.GVAR [("a", 9)] (Game.afterCalls [("a", 9)] { _GVARS := [1, 2, 3] }
        [.setGVAR 1 5, .GVAR 7, .setGVAR 9 4, .setGVAR 1 6]) 1).1 = .ok 6 :=
  ⟨by decide, (Game.GVAR_after_calls [("a", 9)] { _GVARS := [1, 2, 3] }
    [.setGVAR 1 5, .GVAR 7, .setGVAR 9 4, .setGVAR 1 6] (by decide)).2.2.2 1 (by decide)⟩

/-! ## Script scheduling in `Location::think`: theorems -/

theorem Location.think_of_enter (loc : Location) (input : ThinkInput)
    (h : loc._locationEnter = true) :
    loc.think input
      = ({ loc with _locationEnter := false },
         (match loc._locationScript with
          | some vm => [ScriptCall.initializeScript vm]
          | none => [])
         ++ loc._objects.filterMap
              (fun object => (input.objects object).script.map ScriptCall.initializeScript)
         ++ (match (input.objects input.player).script with
             | some vm => [ScriptCall.initializeScript vm]
             | none => [])
         ++ (match loc._locationScript with
             | some vm => [ScriptCall.call vm "map_enter_p_proc"]
             | none => [])
         ++ [ScriptCall.map_enter_p_proc input.player]
         ++ loc._objects.reverse.map ScriptCall.map_enter_p_proc) := by
  simp [Location.think, h]

theorem Location.think_of_not_enter (loc : Location) (input : ThinkInput)
    (h : loc._locationEnter = false) :
    loc.think input
      = if (loc._scriptsTicks + 10000) % 2 ^ 32 < input.ticks then
          ({ loc with _scriptsTicks := input.ticksAtUpdate },
           (match loc._locationScript with
            | some vm => [ScriptCall.call vm "map_update_p_proc"]
            | none => [])
           ++ loc._objects.map ScriptCall.map_update_p_proc
           ++ [ScriptCall.map_update_p_proc input.player])
        else (loc, []) := by
  simp [Location.think, h]

theorem Location.think_clears_flag (loc : Location) (input : ThinkInput) :
    (loc.think input).1._locationEnter = false := by
  cases h : loc._locationEnter with
  | true => rw [Location.think_of_enter loc input h]
  | false =>
    rw [Location.think_of_not_enter loc input h]
    split
    · exact h
    · exact h

theorem Location.think_no_enter (loc : Location) (input : ThinkInput)
    (h : loc._locationEnter = false) :
    ∀ c ∈ (loc.think input).2, c.isMapEnter = false := by
  rw [Location.think_of_not_enter loc input h]
  intro c hc
  split at hc
  · simp only [List.mem_append, List.mem_map, List.mem_singleton] at hc
    rcases hc with (hc | ⟨o, _, rfl⟩) | rfl
    · cases hs : loc._locationScript with
      | none => rw [hs] at hc; simp at hc
      | some vm =>
        rw [hs] at hc
        simp only [List.mem_singleton] at hc
        subst hc
        show ("map_update_p_proc" == "map_enter_p_proc") = false
        decide
    · rfl
    · rfl
  · simp at hc

theorem Location.think_no_update (loc : Location) (input : ThinkInput)
    (h : loc._locationEnter = true) :
    ∀ c ∈ (loc.think input).2, c.isMapUpdate = false := by
  rw [Location.think_of_enter loc input h]
  intro c hc
  simp only [List.mem_append, List.mem_map, List.mem_singleton, List.mem_filterMap,
    List.mem_reverse] at hc
  rcases hc with ((((hc | ⟨o, _, ho⟩) | hc) | hc) | rfl) | ⟨o, _, rfl⟩
  · cases hs : loc._locationScript with
    | none => rw [hs] at hc; simp at hc
    | some vm => rw [hs] at hc; simp only [List.mem_singleton] at hc; subst hc; rfl
  · cases hs : (input.objects o).script with
    | none => rw [hs] at ho; simp at ho
    | some vm => rw [hs] at ho; simp at ho; subst ho; rfl
  · cases hs : (input.objects input.player).script with
    | none => rw [hs] at hc; simp at hc
    | some vm => rw [hs] at hc; simp only [List.mem_singleton] at hc; subst hc; rfl
  · cases hs : loc._locationScript with
    | none => rw [hs] at hc; simp at hc
    | some vm =>
      rw [hs] at hc
      simp only [List.mem_singleton] at hc
      subst hc
      show ("map_enter_p_proc" == "map_update_p_proc") = false
      decide
  · rfl
  · rfl

theorem Location.thinkTraces_no_enter (inputs : List ThinkInput) :
    ∀ loc : Location, loc._locationEnter = false →
      ∀ t ∈ loc.thinkTraces inputs, ∀ c ∈ t, c.isMapEnter = false := by
  induction inputs with
  | nil => intro loc _ t ht; simp [Location.thinkTraces] at ht
  | cons input inputs ih =>
    intro loc h t ht
    simp only [Location.thinkTraces, List.mem_cons] at ht
    rcases ht with rfl | ht
    · exact Location.think_no_enter loc input h
    · exact ih _ (Location.think_clears_flag loc input) t ht

theorem Location.think_enter_calls (loc : Location) (input : ThinkInput)
    (h : loc._locationEnter = true) :
    (loc.think input).2.filter ScriptCall.isMapEnter
      = (match loc._locationScript with
         | some vm => [ScriptCall.call vm "map_enter_p_proc"]
         | none => [])
        ++ ScriptCall.map_enter_p_proc input.player
          :: loc._objects.reverse.map ScriptCall.map_enter_p_proc := by
  rw [Location.think_of_enter loc input h]
  have hobjs : (loc._objects.filterMap
      (fun object => (input.objects object).script.map ScriptCall.initializeScript)).filter
        ScriptCall.isMapEnter = [] := by
    rw [List.filter_eq_nil_iff]
    intro c hc
    simp only [List.mem_filterMap, Option.map_eq_some'] at hc
    obtain ⟨o, _, vm, _, rfl⟩ := hc
    simp [ScriptCall.isMapEnter]
  have henter : (loc._objects.reverse.map ScriptCall.map_enter_p_proc).filter
      ScriptCall.isMapEnter = loc._objects.reverse.map ScriptCall.map_enter_p_proc := by
    rw [List.filter_eq_self]
    intro c hc
    simp only [List.mem_map] at hc
    obtain ⟨o, _, rfl⟩ := hc
    rfl
  have hcall : ∀ vm : Nat,
      (ScriptCall.call vm "map_enter_p_proc").isMapEnter = true := by
    intro vm
    show ("map_enter_p_proc" == "map_enter_p_proc") = true
    decide
  simp only [List.filter_append, hobjs, henter]
  cases loc._locationScript <;> cases (input.objects input.player).script <;>
    simp [List.filter, ScriptCall.isMapEnter, hcall]

/-- C10: every `think` leaves the location-enter flag clear; a `think` invokes
`map_enter_p_proc` only if it found the flag set, and then its `map_enter_p_proc` calls are
one on the location script (if any), one on the player and one per stored object; in any
sequence of `think` calls no `think` after the first invokes `map_enter_p_proc`, and no
`think` invokes both `map_enter_p_proc` and `map_update_p_proc`. -/
theorem Location.think_map_enter_once (loc : Location) (inputs : List ThinkInput) :
    (∀ input : ThinkInput, (loc.think input).1._locationEnter = false) ∧
    (∀ input : ThinkInput, (∃ c ∈ (loc.think input).2, c.isMapEnter = true) →
      loc._locationEnter = true) ∧
    (∀ input : ThinkInput, loc._locationEnter = true →
      ScriptCall.map_enter_p_proc input.player ∈ (loc.think input).2
      ∧ (loc.think input).2.filter ScriptCall.isMapEnter
        = (match loc._locationScript with
           | some vm => [ScriptCall.call vm "map_enter_p_proc"]
           | none => [])
          ++ ScriptCall.map_enter_p_proc input.player
            :: loc._objects.reverse.map ScriptCall.map_enter_p_proc) ∧
    (∀ t ∈ (loc.thinkTraces inputs).tail, ∀ c ∈ t, c.isMapEnter = false) ∧
    (∀ t ∈ loc.thinkTraces inputs,
      ¬ ((∃ c ∈ t, c.isMapEnter = true) ∧ (∃ c ∈ t, c.isMapUpdate = true))) := by
  have hsingle : ∀ (l : Location) (input : ThinkInput),
      ¬ ((∃ c ∈ (l.think input).2, c.isMapEnter = true)
        ∧ (∃ c ∈ (l.think input).2, c.isMapUpdate = true)) := by
    intro l input ⟨⟨c, hc, hce⟩, ⟨d, hd, hdu⟩⟩
    cases h : l._locationEnter with
    | true => rw [Location.think_no_update l input h d hd] at hdu; cases hdu
    | false => rw [Location.think_no_enter l input h c hc] at hce; cases hce
  have hall : ∀ (ins : List ThinkInput) (l : Location), ∀ t ∈ l.thinkTraces ins,
      ¬ ((∃ c ∈ t, c.isMapEnter = true) ∧ (∃ c ∈ t, c.isMapUpdate = true)) := by
    intro ins
    induction ins with
    | nil => intro l t ht; simp [Location.thinkTraces] at ht
    | cons input ins ih =>
      intro l t ht
      simp only [Location.thinkTraces, List.mem_cons] at ht
      rcases ht with rfl | ht
      · exact hsingle l input
      · exact ih _ t ht
  refine ⟨Location.think_clears_flag loc, ?_, ?_, ?_, hall inputs loc⟩
  · intro input ⟨c, hc, hce⟩
    cases h : loc._locationEnter with
    | true => rfl
    | false => rw [Location.think_no_enter loc input h c hc] at hce; cases hce
  · intro input h
    refine ⟨?_, Location.think_enter_calls loc input h⟩
    rw [Location.think_of_enter loc input h]
    simp
  · cases inputs with
    | nil => intro t ht; simp [Location.thinkTraces] at ht
    | cons input inputs =>
      intro t ht
      simp only [Location.thinkTraces, List.tail_cons] at ht
      exact Location.thinkTraces_no_enter inputs _ (Location.think_clears_flag loc input) t ht

theorem Location.think_map_enter_once_witness :
    (Location._locationEnter
      { _objects := [4, 5], _locationScript := some 0, _locationEnter := true } = true) ∧
    ScriptCall.map_enter_p_proc 9 ∈
      (({ _objects := [4, 5], _locationScript := some 0, _locationEnter := true } : Location).think
        ⟨fun _ => { script := some 1 }, 9, 20000, 20001⟩).2 :=
  ⟨rfl, ((Location.think_map_enter_once
      { _objects := [4, 5], _locationScript := some 0, _locationEnter := true } []).2.2.1
    ⟨fun _ => { script := some 1 }, 9, 20000, 20001⟩ rfl).1⟩

/-- C11: in the `think` that finds the location-enter flag set, the calls are a block of
`initialize()` calls followed by a block of `map_enter_p_proc` calls; the first block holds
the `initialize()` of the location script (if any), of the script of every stored object
that has one, and of the player's script (if any), and every call of the second block is
made on the location script, on the player or on a stored object. -/
theorem Location.think_initializes_before_enter (loc : Location) (input : ThinkInput)
    (h : loc._locationEnter = true) :
    ∃ inits enters : List ScriptCall,
      (loc.think input).2 = inits ++ enters ∧
      (∀ c ∈ inits, ∃ vm : Nat, c = ScriptCall.initializeScript vm) ∧
      (∀ c ∈ enters, c.isMapEnter = true) ∧
      (∀ vm : Nat, loc._locationScript = some vm → ScriptCall.initializeScript vm ∈ inits) ∧
      (∀ object ∈ loc._objects, ∀ vm : Nat, (input.objects object).script = some vm →
        ScriptCall.initializeScript vm ∈ inits) ∧
      (∀ vm : Nat, (input.objects input.player).script = some vm →
        ScriptCall.initializeScript vm ∈ inits) ∧
      (∀ c ∈ enters,
        (∃ vm : Nat, loc._locationScript = some vm ∧ c = ScriptCall.call vm "map_enter_p_proc")
        ∨ (∃ object : Nat, (object = input.player ∨ object ∈ loc._objects)
            ∧ c = ScriptCall.map_enter_p_proc object)) := by
  refine ⟨(match loc._locationScript with
          | some vm => [ScriptCall.initializeScript vm]
          | none => [])
         ++ loc._objects.filterMap
              (fun object => (input.objects object).script.map ScriptCall.initializeScript)
         ++ (match (input.objects input.player).script with
             | some vm => [ScriptCall.initializeScript vm]
             | none => []),
         (match loc._locationScript with
             | some vm => [ScriptCall.call vm "map_enter_p_proc"]
             | none => [])
         ++ [ScriptCall.map_enter_p_proc input.player]
         ++ loc._objects.reverse.map ScriptCall.map_enter_p_proc, ?_, ?_, ?_, ?_, ?_, ?_, ?_⟩
  · rw [Location.think_of_enter loc input h]
    simp only [List.append_assoc]
  · intro c hc
    simp only [List.mem_append, List.mem_filterMap, Option.map_eq_some'] at hc
    rcases hc with (hc | ⟨o, _, vm, _, rfl⟩) | hc
    · cases hs : loc._locationScript with
      | none => rw [hs] at hc; simp at hc
      | some vm => rw [hs] at hc; exact ⟨vm, by simpa using hc⟩
    · exact ⟨vm, rfl⟩
    · cases hs : (input.objects input.player).script with
      | none => rw [hs] at hc; simp at hc
      | some vm => rw [hs] at hc; exact ⟨vm, by simpa using hc⟩
  · intro c hc
    simp only [List.mem_append, List.mem_map, List.mem_singleton, List.mem_reverse] at hc
    rcases hc with (hc | rfl) | ⟨o, _, rfl⟩
    · cases hs : loc._locationScript with
      | none => rw [hs] at hc; simp at hc
      | some vm =>
        rw [hs] at hc
        simp only [List.mem_singleton] at hc
        subst hc
        show ("map_enter_p_proc" == "map_enter_p_proc") = true
        decide
    · rfl
    · rfl
  · intro vm hvm
    simp [hvm]
  · intro object ho vm hvm
    simp only [List.mem_append, List.mem_filterMap, Option.map_eq_some']
    exact Or.inl (Or.inr ⟨object, ho, vm, hvm, rfl⟩)
  · intro vm hvm
    simp [hvm]
  · intro c hc
    simp only [List.mem_append, List.mem_map, List.mem_singleton, List.mem_reverse] at hc
    rcases hc with (hc | rfl) | ⟨o, ho, rfl⟩
    · cases hs : loc._locationScript with
      | none => rw [hs] at hc; simp at hc
      | some vm =>
        rw [hs] at hc
        exact Or.inl ⟨vm, rfl, by simpa using hc⟩
    · exact Or.inr ⟨input.player, Or.inl rfl, rfl⟩
    · exact Or.inr ⟨o, Or.inr ho, rfl⟩

theorem Location.think_initializes_before_enter_witness :
    (Location._locationEnter
      { _objects := [4, 5], _locationScript := some 0, _locationEnter := true } = true) ∧
    ∃ inits enters : List ScriptCall,
      (({ _objects := [4, 5], _locationScript := some 0, _locationEnter := true } : Location).think
        ⟨fun _ => { script := some 1 }, 9, 20000, 20001⟩).2 = inits ++ enters ∧
      (∀ c ∈ inits, ∃ vm : Nat, c = ScriptCall.initializeScript vm) ∧
      (∀ c ∈ enters, c.isMapEnter = true) :=
  ⟨rfl,
    match Location.think_initializes_before_enter
      { _objects := [4, 5], _locationScript := some 0, _locationEnter := true }
      ⟨fun _ => { script := some 1 }, 9, 20000, 20001⟩ rfl with
    | ⟨inits, enters, h1, h2, h3, _⟩ => ⟨inits, enters, h1, h2, h3⟩⟩

/-- C12: in the `think` that finds the location-enter flag set, the `map_enter_p_proc`
calls are, in order: the one on the location script (if there is one), the one on the
player, then one per stored object in the reverse of the storage order; so the number of
calls on an object is the number of times it is stored (plus one for the player). -/
theorem Location.think_enter_order (loc : Location) (input : ThinkInput)
    (h : loc._locationEnter = true) :
    (loc.think input).2.filter ScriptCall.isMapEnter
      = (match loc._locationScript with
         | some vm => [ScriptCall.call vm "map_enter_p_proc"]
         | none => [])
        ++ ScriptCall.map_enter_p_proc input.player
          :: loc._objects.reverse.map ScriptCall.map_enter_p_proc ∧
    (∀ object : Nat,
      ((loc.think input).2.filter ScriptCall.isMapEnter).count
          (ScriptCall.map_enter_p_proc object)
        = loc._objects.count object + (if object = input.player then 1 else 0)) := by
  refine ⟨Location.think_enter_calls loc input h, ?_⟩
  intro object
  rw [Location.think_enter_calls loc input h]
  have hinj : Function.Injective ScriptCall.map_enter_p_proc := by
    intro a b hab
    cases hab
    rfl
  have hobjs : (loc._objects.reverse.map ScriptCall.map_enter_p_proc).count
      (ScriptCall.map_enter_p_proc object) = loc._objects.count object := by
    rw [List.count_map_of_injective _ _ hinj, List.count_reverse]
  rw [List.count_append, List.count_cons, hobjs]
  cases loc._locationScript with
  | none =>
    by_cases hp : object = input.player
    · subst hp; simp
    · have hp1 : ¬ (input.player = object) := fun e => hp e.symm
      simp [hp, hp1]
  | some vm =>
    by_cases hp : object = input.player
    · subst hp; simp
    · have hp1 : ¬ (input.player = object) := fun e => hp e.symm
      simp [hp, hp1]

theorem Location.think_enter_order_witness :
    (Location._locationEnter
      { _objects := [4, 5], _locationScript := some 0, _locationEnter := true } = true) ∧
    (({ _objects := [4, 5], _locationScript := some 0, _locationEnter := true } : Location).think
        ⟨fun _ => { script := some 1 }, 9, 20000, 20001⟩).2.filter ScriptCall.isMapEnter
      = [ScriptCall.call 0 "map_enter_p_proc", ScriptCall.map_enter_p_proc 9,
         ScriptCall.map_enter_p_proc 5, ScriptCall.map_enter_p_proc 4] :=
  ⟨rfl, (Location.think_enter_order
      { _objects := [4, 5], _locationScript := some 0, _locationEnter := true }
      ⟨fun _ => { script := some 1 }, 9, 20000, 20001⟩ rfl).1⟩

/-! ## Cursor icons and orientation: theorems -/

/-- C13: the first icon of `getCursorIconsForObject` is USE exactly when the object has a
script with `use_p_proc`, or is a door, or is a container; otherwise it is ROTATE for an
object of type DUDE, TALK for one of type CRITTER and LOOK for every other type.  USE
occurs at most once, and the list is not empty. -/
theorem Location.getCursorIcons_first (hasFunction : Nat → String → Bool)
    (objects : ObjectStore) (object : Nat) :
    ((Location.getCursorIconsForObject hasFunction objects object).head? = some Icon.USE ↔
      ((∃ vm : Nat, (objects object).script = some vm ∧ hasFunction vm "use_p_proc" = true)
        ∨ (objects object).cls.isA .DoorSceneryObject = true
        ∨ (objects object).cls.isA .ContainerItemObject = true)) ∧
    ((Location.getCursorIconsForObject hasFunction objects object).head? ≠ some Icon.USE →
      (Location.getCursorIconsForObject hasFunction objects object).head?
        = some (match (objects object).type with
                | .DUDE => Icon.ROTATE
                | .CRITTER => Icon.TALK
                | _ => Icon.LOOK)) ∧
    (Location.getCursorIconsForObject hasFunction objects object).count Icon.USE ≤ 1 ∧
    Location.getCursorIconsForObject hasFunction objects object ≠ [] := by
  unfold Location.getCursorIconsForObject
  simp only [dynamic_cast_isSome]
  cases hs : (objects object).script with
  | none =>
    cases hd : (objects object).cls.isA .DoorSceneryObject <;>
      cases hc : (objects object).cls.isA .ContainerItemObject <;>
        cases ht : (objects object).type <;> simp
  | some vm =>
    cases hf : hasFunction vm "use_p_proc" <;>
      cases hd : (objects object).cls.isA .DoorSceneryObject <;>
        cases hc : (objects object).cls.isA .ContainerItemObject <;>
          cases ht : (objects object).type <;> simp [hf]

theorem Location.getCursorIcons_first_witness :
    (Location.getCursorIconsForObject (fun _ _ => false)
        (fun _ => { cls := .CritterObject, type := .CRITTER }) 3).head? ≠ some Icon.USE ∧
    (Location.getCursorIconsForObject (fun _ _ => false)
        (fun _ => { cls := .CritterObject, type := .CRITTER }) 3).head? = some Icon.TALK :=
  ⟨by decide, (Location.getCursorIcons_first (fun _ _ => false)
      (fun _ => { cls := .CritterObject, type := .CRITTER }) 3).2.1 (by decide)⟩

/-- C15: an `Orientation` constructed from an `unsigned char` value `v` converts back to
`v mod 6`; and whatever the argument, the constructed value lies in 0..5. -/
theorem Orientation.roundtrip_mod_six (v : Nat) :
    (v < 256 → (Orientation.ofUnsignedChar v).toUnsignedChar = v % 6) ∧
    (Orientation.ofUnsignedChar v).toUnsignedChar < 6 ∧
    (Orientation.ofUnsignedChar v).toUnsignedChar = (v % 256) % 6 := by
  simp only [Orientation.ofUnsignedChar, Orientation.toUnsignedChar]
  refine ⟨?_, ?_, ?_⟩
  · intro hv
    omega
  · omega
  · omega

theorem Orientation.roundtrip_mod_six_witness :
    (200 < 256) ∧ (Orientation.ofUnsignedChar 200).toUnsignedChar = 200 % 6 :=
  ⟨by decide, (Orientation.roundtrip_mod_six 200).1 (by decide)⟩

/-! ## The main loop and the state stack: theorems -/

theorem Game.run_loop_trace (steps : FrameSteps) (fuel : Nat) :
    ∀ game : Game, ∃ n : Nat, n ≤ fuel ∧
      (Game.run.loop steps fuel game).2
        = (List.replicate n [LoopCall.handle, LoopCall.think, LoopCall.render,
            LoopCall.SDL_Delay 1, LoopCall.clearStatesForDelete]).flatten := by
  induction fuel with
  | zero => intro game; exact ⟨0, Nat.le_refl 0, rfl⟩
  | succ fuel ih =>
    intro game
    cases hq : game._quit with
    | true => exact ⟨0, Nat.zero_le _, by simp [Game.run.loop, hq]⟩
    | false =>
      obtain ⟨n, hn, htrace⟩ := ih (Game.run.body steps game).1
      refine ⟨n + 1, Nat.succ_le_succ hn, ?_⟩
      simp only [Game.run.loop, hq, Bool.not_false, if_true, htrace, List.replicate_succ,
        List.flatten_cons]
      rfl

/-- C16: every iteration of the main loop takes the steps `handle()`, `think()`,
`render()`, the delay, and the clearing of the popped states, in that order and once each,
and leaves the list of popped states empty; the steps of a whole run are those of its
iterations one after the other. -/
theorem Game.run_order (steps : FrameSteps) (fuel : Nat) (game : Game) :
    (Game.run.body steps game).2
      = [LoopCall.handle, LoopCall.think, LoopCall.render, LoopCall.SDL_Delay 1,
         LoopCall.clearStatesForDelete] ∧
    (Game.run.body steps game).1._statesForDelete = [] ∧
    (Game.run.body steps game).1._states
      = (steps.render (steps.think (steps.handle game)))._states ∧
    (∃ n : Nat, n ≤ fuel ∧
      (Game.run steps fuel game).2
        = (List.replicate n [LoopCall.handle, LoopCall.think, LoopCall.render,
            LoopCall.SDL_Delay 1, LoopCall.clearStatesForDelete]).flatten) :=
  ⟨rfl, rfl, rfl, Game.run_loop_trace steps fuel _⟩

theorem Game.scan_spec (states : StateStore) (l : List Nat) (it : Nat) (hpos : 0 < it) :
    Game._getVisibleStates.scan states l it < it ∧
    (∀ j : Nat, Game._getVisibleStates.scan states l it < j → j < it →
      ∀ s : Nat, l[j]? = some s → (states s).fullscreen = false) ∧
    (Game._getVisibleStates.scan states l it ≠ 0 →
      ∃ s : Nat, l[Game._getVisibleStates.scan states l it]? = some s
        ∧ (states s).fullscreen = true) := by
  induction it with
  | zero => exact absurd hpos (Nat.lt_irrefl 0)
  | succ it ih =>
    unfold Game._getVisibleStates.scan
    by_cases hcond : (it != 0 && !(match l[it]? with
                    | some state => (states state).fullscreen
                    | none => false)) = true
    · rw [if_pos hcond]
      simp only [Bool.and_eq_true, bne_iff_ne, ne_eq, Bool.not_eq_true'] at hcond
      obtain ⟨hne, hfs⟩ := hcond
      obtain ⟨h1, h2, h3⟩ := ih (Nat.pos_of_ne_zero hne)
      refine ⟨Nat.lt_succ_of_lt h1, ?_, h3⟩
      intro j hj hlt s hs
      by_cases hji : j = it
      · subst hji
        rw [hs] at hfs
        exact hfs
      · exact h2 j hj (by omega) s hs
    · rw [if_neg hcond]
      refine ⟨Nat.lt_succ_self it, ?_, ?_⟩
      · intro j hj hlt
        omega
      · intro hne
        simp only [Bool.and_eq_true, bne_iff_ne, ne_eq, Bool.not_eq_true', not_and,
          Bool.not_eq_false] at hcond
        have hfs := hcond hne
        cases hget : l[it]? with
        | none => rw [hget] at hfs; cases hfs
        | some s => rw [hget] at hfs; exact ⟨s, rfl, hfs⟩

/-- C17: `_getVisibleStates` returns the empty list on an empty stack; otherwise it
returns a non-empty top segment of the stack in stack order (the stack is some states below
followed by the returned ones), none of the returned states above the first is fullscreen,
and the first one is fullscreen unless the segment is the whole stack; so the segment
starts at the topmost fullscreen state, and is the whole stack when no state is
fullscreen. -/
theorem Game.getVisibleStates_segment (states : StateStore) (game : Game) :
    (game._states = [] → Game._getVisibleStates states game = []) ∧
    (game._states ≠ [] → Game._getVisibleStates states game ≠ []) ∧
    (∃ below : List Nat, game._states = below ++ Game._getVisibleStates states game ∧
      (below ≠ [] → ∃ s rest, Game._getVisibleStates states game = s :: rest
        ∧ (states s).fullscreen = true)) ∧
    (∀ s ∈ (Game._getVisibleStates states game).tail, (states s).fullscreen = false) ∧
    ((∀ s ∈ game._states, (states s).fullscreen = false) →
      Game._getVisibleStates states game = game._states) := by
  cases hl : game._states with
  | nil =>
    simp [Game._getVisibleStates, hl]
  | cons x xs =>
    have hlen : 0 < (x :: xs).length := by simp
    obtain ⟨h1, h2, h3⟩ := Game.scan_spec states (x :: xs) (x :: xs).length hlen
    have hvis : Game._getVisibleStates states game
        = (x :: xs).drop (Game._getVisibleStates.scan states (x :: xs) (x :: xs).length) := by
      simp [Game._getVisibleStates, hl]
    rw [hvis]
    generalize hk : Game._getVisibleStates.scan states (x :: xs) (x :: xs).length = k at h1 h2 h3
    have hhead : ∀ hne : k ≠ 0, ∃ s rest, (x :: xs).drop k = s :: rest
        ∧ (states s).fullscreen = true := by
      intro hne
      obtain ⟨s, hs, hfs⟩ := h3 hne
      refine ⟨s, (x :: xs).drop (k + 1), ?_, hfs⟩
      rw [List.getElem?_eq_getElem h1] at hs
      rw [List.drop_eq_getElem_cons h1]
      simp only [Option.some.injEq] at hs
      rw [hs]
    have htail : ∀ s ∈ ((x :: xs).drop k).tail, (states s).fullscreen = false := by
      intro s hs
      rw [List.tail_drop] at hs
      obtain ⟨i, hi⟩ := List.mem_iff_getElem?.mp hs
      rw [List.getElem?_drop] at hi
      have hlt : k + 1 + i < (x :: xs).length := by
        by_contra hge
        rw [List.getElem?_eq_none (Nat.not_lt.mp hge)] at hi
        cases hi
      exact h2 (k + 1 + i) (by omega) hlt s hi
    refine ⟨by simp, ?_, ⟨(x :: xs).take k, (List.take_append_drop k (x :: xs)).symm, ?_⟩,
      htail, ?_⟩
    · intro _ hnil
      rw [List.drop_eq_nil_iff] at hnil
      omega
    · intro hbelow
      apply hhead
      intro hk0
      apply hbelow
      rw [hk0]
      rfl
    · intro hall
      by_cases hk0 : k = 0
      · rw [hk0]; rfl
      · obtain ⟨s, rest, hdrop, hfs⟩ := hhead hk0
        have hmem : s ∈ x :: xs := by
          apply List.mem_of_mem_drop
          rw [hdrop]
          exact List.mem_cons_self s rest
        rw [hall s hmem] at hfs
        cases hfs

theorem Game.getVisibleStates_segment_witness :
    (({ _states := [1, 2, 3] } : Game)._states ≠ []) ∧
    Game._getVisibleStates (fun s => { fullscreen := decide (s = 2) }) { _states := [1, 2, 3] }
      ≠ [] :=
  ⟨by decide, (Game.getVisibleStates_segment (fun s => { fullscreen := decide (s = 2) })
      { _states := [1, 2, 3] }).2.1 (by decide)⟩

theorem takeThrough_append_dropThrough (p : Nat → Bool) (l : List Nat) :
    takeThrough p l ++ dropThrough p l = l := by
  induction l with
  | nil => rfl
  | cons x xs ih =>
    by_cases hp : p x = true
    · simp [takeThrough, dropThrough, hp]
    · simp [takeThrough, dropThrough, hp, ih]

theorem Game.activate_spec (states : StateStore) (x : Nat) :
    (∀ s : Nat, (Game._getActiveStates.activate states x).1 s
      = if s = x then { states s with active := true } else states s) ∧
    (∀ e ∈ (Game._getActiveStates.activate states x).2,
      e = (x, "activate") ∧ (states x).active = false) := by
  unfold Game._getActiveStates.activate
  cases ha : (states x).active with
  | true =>
    refine ⟨?_, by simp⟩
    intro s
    by_cases hsx : s = x
    · subst hsx
      cases hst : states s
      rw [hst] at ha
      simp only at ha
      simp [ha]
      rw [hst, ha]
    · simp [hsx]
  | false =>
    refine ⟨?_, by simp⟩
    intro s
    by_cases hsx : s = x
    · subst hsx; simp
    · simp [hsx, Function.update_noteq hsx]

theorem Game.deactivate_spec (states : StateStore) (x : Nat) :
    (∀ s : Nat, (Game._getActiveStates.deactivate states x).1 s
      = if s = x then { states s with active := false } else states s) ∧
    (∀ e ∈ (Game._getActiveStates.deactivate states x).2,
      e = (x, "deactivate") ∧ (states x).active = true) := by
  unfold Game._getActiveStates.deactivate
  cases ha : (states x).active with
  | false =>
    refine ⟨?_, by simp⟩
    intro s
    by_cases hsx : s = x
    · subst hsx
      cases hst : states s
      rw [hst] at ha
      simp only at ha
      simp [ha]
      rw [hst, ha]
    · simp [hsx]
  | true =>
    refine ⟨?_, by simp⟩
    intro s
    by_cases hsx : s = x
    · subst hsx; simp
    · simp [hsx, Function.update_noteq hsx]

theorem Game.activeLoop_spec (l : List Nat) :
    ∀ states : StateStore,
      (Game._getActiveStates.activeLoop states l).2.1
        = takeThrough (fun s => (states s).modal || (states s).fullscreen) l ∧
      (Game._getActiveStates.activeLoop states l).2.2.2
        = dropThrough (fun s => (states s).modal || (states s).fullscreen) l ∧
      (∀ s : Nat, (Game._getActiveStates.activeLoop states l).1 s
        = if s ∈ takeThrough (fun s => (states s).modal || (states s).fullscreen) l then
            { states s with active := true }
          else states s) ∧
      (∀ e ∈ (Game._getActiveStates.activeLoop states l).2.2.1,
        e.2 = "activate" ∧ (states e.1).active = false
        ∧ e.1 ∈ takeThrough (fun s => (states s).modal || (states s).fullscreen) l) := by
  induction l with
  | nil =>
    intro states
    simp [Game._getActiveStates.activeLoop, takeThrough, dropThrough]
  | cons x xs ih =>
    intro states
    obtain ⟨hupd, hev⟩ := Game.activate_spec states x
    unfold Game._getActiveStates.activeLoop
    simp only
    generalize Game._getActiveStates.activate states x = a at hupd hev
    have hp : (fun s => (a.1 s).modal || (a.1 s).fullscreen)
        = (fun s => (states s).modal || (states s).fullscreen) := by
      funext s
      rw [hupd s]
      by_cases hsx : s = x <;> simp [hsx]
    obtain ⟨ih1, ih2, ih3, ih4⟩ := ih a.1
    rw [hp] at ih1 ih2 ih3 ih4
    have hpx : ((a.1 x).modal || (a.1 x).fullscreen)
        = ((states x).modal || (states x).fullscreen) := congrFun hp x
    rw [hpx]
    by_cases hstop : ((states x).modal || (states x).fullscreen) = true
    · have ht : takeThrough (fun s => (states s).modal || (states s).fullscreen) (x :: xs)
          = [x] := by simp [takeThrough, hstop]
      have hd : dropThrough (fun s => (states s).modal || (states s).fullscreen) (x :: xs)
          = xs := by simp [dropThrough, hstop]
      rw [if_pos hstop, ht, hd]
      simp only [List.mem_singleton]
      refine ⟨trivial, trivial, hupd, ?_⟩
      intro e he
      obtain ⟨he1, he2⟩ := hev e he
      subst he1
      exact ⟨rfl, he2, rfl⟩
    · have ht : takeThrough (fun s => (states s).modal || (states s).fullscreen) (x :: xs)
          = x :: takeThrough (fun s => (states s).modal || (states s).fullscreen) xs := by
        simp [takeThrough, hstop]
      have hd : dropThrough (fun s => (states s).modal || (states s).fullscreen) (x :: xs)
          = dropThrough (fun s => (states s).modal || (states s).fullscreen) xs := by
        simp [dropThrough, hstop]
      rw [if_neg hstop, ht, hd]
      simp only [List.mem_cons]
      refine ⟨by rw [ih1], ih2, ?_, ?_⟩
      · intro s
        rw [ih3 s, hupd s]
        by_cases hsx : s = x
        · subst hsx
          by_cases hmem : s ∈ takeThrough (fun s => (states s).modal || (states s).fullscreen) xs
          · simp [hmem]
          · simp [hmem]
        · simp [hsx]
      · intro e he
        simp only [List.mem_append] at he
        rcases he with he | he
        · obtain ⟨he1, he2⟩ := hev e he
          subst he1
          exact ⟨rfl, he2, Or.inl rfl⟩
        · obtain ⟨h1, h2, h3⟩ := ih4 e he
          rw [hupd e.1] at h2
          by_cases hex : e.1 = x
          · rw [if_pos hex] at h2
            cases h2
          · rw [if_neg hex] at h2
            exact ⟨h1, h2, Or.inr h3⟩

theorem Game.inactiveLoop_spec (l : List Nat) :
    ∀ states : StateStore,
      (∀ s : Nat, (Game._getActiveStates.inactiveLoop states l).1 s
        = if s ∈ l then { states s with active := false } else states s) ∧
      (∀ e ∈ (Game._getActiveStates.inactiveLoop states l).2,
        e.2 = "deactivate" ∧ (states e.1).active = true ∧ e.1 ∈ l) := by
  induction l with
  | nil =>
    intro states
    simp [Game._getActiveStates.inactiveLoop]
  | cons x xs ih =>
    intro states
    obtain ⟨hupd, hev⟩ := Game.deactivate_spec states x
    unfold Game._getActiveStates.inactiveLoop
    simp only
    generalize Game._getActiveStates.deactivate states x = a at hupd hev
    obtain ⟨ih1, ih2⟩ := ih a.1
    simp only [List.mem_cons]
    refine ⟨?_, ?_⟩
    · intro s
      rw [ih1 s, hupd s]
      by_cases hsx : s = x
      · subst hsx
        by_cases hmem : s ∈ xs
        · simp [hmem]
        · simp [hmem]
      · simp [hsx]
    · intro e he
      simp only [List.mem_append] at he
      rcases he with he | he
      · obtain ⟨he1, he2⟩ := hev e he
        subst he1
        exact ⟨rfl, he2, Or.inl rfl⟩
      · obtain ⟨h1, h2, h3⟩ := ih2 e he
        rw [hupd e.1] at h2
        by_cases hex : e.1 = x
        · rw [if_pos hex] at h2
          cases h2
        · rw [if_neg hex] at h2
          exact ⟨h1, h2, Or.inr h3⟩

/-- C18: on a state stack without repeated states, `_getActiveStates` returns the states
from the top of the stack down to and including the first modal or fullscreen one (all of
them if there is none), top first; afterwards a state of the stack is active exactly when
it is in the returned list; an "activate" event is emitted only for a state that was
inactive and is now active, a "deactivate" event only for one that was active and is now
inactive, no other event is emitted, and no modal or fullscreen flag changes. -/
theorem Game.getActiveStates_spec (states : StateStore) (game : Game)
    (hnodup : game._states.Nodup) :
    (Game._getActiveStates states game).2.1
      = takeThrough (fun s => (states s).modal || (states s).fullscreen) game._states.reverse ∧
    (∀ s ∈ game._states, ((Game._getActiveStates states game).1 s).active = true
      ↔ s ∈ (Game._getActiveStates states game).2.1) ∧
    (∀ s : Nat, (s, "activate") ∈ (Game._getActiveStates states game).2.2 →
      (states s).active = false ∧ ((Game._getActiveStates states game).1 s).active = true) ∧
    (∀ s : Nat, (s, "deactivate") ∈ (Game._getActiveStates states game).2.2 →
      (states s).active = true ∧ ((Game._getActiveStates states game).1 s).active = false) ∧
    (∀ e ∈ (Game._getActiveStates states game).2.2, e.2 = "activate" ∨ e.2 = "deactivate") ∧
    (∀ s : Nat, ((Game._getActiveStates states game).1 s).modal = (states s).modal
      ∧ ((Game._getActiveStates states game).1 s).fullscreen = (states s).fullscreen) := by
  obtain ⟨ha1, ha2, ha3, ha4⟩ := Game.activeLoop_spec game._states.reverse states
  obtain ⟨hb1, hb2⟩ := Game.inactiveLoop_spec
    (Game._getActiveStates.activeLoop states game._states.reverse).2.2.2
    (Game._getActiveStates.activeLoop states game._states.reverse).1
  have hsplit := takeThrough_append_dropThrough
    (fun s => (states s).modal || (states s).fullscreen) game._states.reverse
  have hnd : (takeThrough (fun s => (states s).modal || (states s).fullscreen)
      game._states.reverse ++ dropThrough (fun s => (states s).modal || (states s).fullscreen)
      game._states.reverse).Nodup := by
    rw [hsplit]
    exact List.nodup_reverse.mpr hnodup
  have hdisj : ∀ s : Nat,
      s ∈ takeThrough (fun s => (states s).modal || (states s).fullscreen) game._states.reverse →
      s ∈ dropThrough (fun s => (states s).modal || (states s).fullscreen) game._states.reverse →
      False := fun s h1 h2 => (List.nodup_append.mp hnd).2.2 h1 h2
  have hcover : ∀ s ∈ game._states,
      s ∈ takeThrough (fun s => (states s).modal || (states s).fullscreen) game._states.reverse ∨
      s ∈ dropThrough (fun s => (states s).modal || (states s).fullscreen)
        game._states.reverse := by
    intro s hs
    have hmem : s ∈ game._states.reverse := List.mem_reverse.mpr hs
    rw [← hsplit] at hmem
    exact List.mem_append.mp hmem
  have hfinal : ∀ s : Nat, (Game._getActiveStates states game).1 s
      = if s ∈ dropThrough (fun s => (states s).modal || (states s).fullscreen)
            game._states.reverse then
          { states s with active := false }
        else if s ∈ takeThrough (fun s => (states s).modal || (states s).fullscreen)
            game._states.reverse then
          { states s with active := true }
        else states s := by
    intro s
    show (Game._getActiveStates.inactiveLoop _ _).1 s = _
    rw [hb1 s, ha2, ha3 s]
    by_cases h1 : s ∈ dropThrough (fun s => (states s).modal || (states s).fullscreen)
        game._states.reverse
    · rw [if_pos h1, if_pos h1]
      by_cases h2 : s ∈ takeThrough (fun s => (states s).modal || (states s).fullscreen)
          game._states.reverse
      · exact absurd h1 (fun h => hdisj s h2 h)
      · rw [if_neg h2]
    · rw [if_neg h1, if_neg h1]
  have hsub : (Game._getActiveStates states game).2.1 =
      takeThrough (fun s => (states s).modal || (states s).fullscreen) game._states.reverse :=
    ha1
  have hevents : ∀ e ∈ (Game._getActiveStates states game).2.2,
      (e.2 = "activate" ∧ (states e.1).active = false
        ∧ e.1 ∈ takeThrough (fun s => (states s).modal || (states s).fullscreen)
            game._states.reverse)
      ∨ (e.2 = "deactivate" ∧ (states e.1).active = true
        ∧ e.1 ∈ dropThrough (fun s => (states s).modal || (states s).fullscreen)
            game._states.reverse) := by
    intro e he
    have he1 : e ∈ (Game._getActiveStates.activeLoop states game._states.reverse).2.2.1
        ++ (Game._getActiveStates.inactiveLoop
            (Game._getActiveStates.activeLoop states game._states.reverse).1
            (Game._getActiveStates.activeLoop states game._states.reverse).2.2.2).2 := he
    rcases List.mem_append.mp he1 with h | h
    · exact Or.inl (ha4 e h)
    · obtain ⟨h1, h2, h3⟩ := hb2 e h
      rw [ha2] at h3
      rw [ha3 e.1] at h2
      by_cases ht : e.1 ∈ takeThrough (fun s => (states s).modal || (states s).fullscreen)
          game._states.reverse
      · exact absurd h3 (fun h => hdisj e.1 ht h)
      · rw [if_neg ht] at h2
        exact Or.inr ⟨h1, h2, h3⟩
  have hne : ("activate" : String) ≠ "deactivate" := by decide
  refine ⟨hsub, ?_, ?_, ?_, ?_, ?_⟩
  · intro s hs
    rw [hsub, hfinal s]
    rcases hcover s hs with ht | hd
    · have hnd1 : s ∉ dropThrough (fun s => (states s).modal || (states s).fullscreen)
          game._states.reverse := fun h => hdisj s ht h
      rw [if_neg hnd1, if_pos ht]
      simp [ht]
    · have hnt : s ∉ takeThrough (fun s => (states s).modal || (states s).fullscreen)
          game._states.reverse := fun h => hdisj s h hd
      rw [if_pos hd]
      simp [hnt]
  · intro s hs
    rcases hevents (s, "activate") hs with ⟨_, h2, h3⟩ | ⟨h1, _, _⟩
    · have hnd1 : s ∉ dropThrough (fun s => (states s).modal || (states s).fullscreen)
          game._states.reverse := fun h => hdisj s h3 h
      refine ⟨h2, ?_⟩
      rw [hfinal s, if_neg hnd1, if_pos h3]
    · exact absurd h1 hne
  · intro s hs
    rcases hevents (s, "deactivate") hs with ⟨h1, _, _⟩ | ⟨_, h2, h3⟩
    · exact absurd h1.symm hne
    · refine ⟨h2, ?_⟩
      rw [hfinal s, if_pos h3]
  · intro e he
    rcases hevents e he with ⟨h1, _, _⟩ | ⟨h1, _, _⟩
    · exact Or.inl h1
    · exact Or.inr h1
  · intro s
    rw [hfinal s]
    split
    · exact ⟨rfl, rfl⟩
    · split
      · exact ⟨rfl, rfl⟩
      · exact ⟨rfl, rfl⟩

theorem Game.getActiveStates_spec_witness :
    (({ _states := [0, 1, 2, 3, 4] } : Game)._states.Nodup) ∧
    (Game._getActiveStates
        (fun s => { modal := decide (s = 2), active := decide (s ≤ 1 ∨ s = 4) })
        { _states := [0, 1, 2, 3, 4] }).2.1 = [4, 3, 2] :=
  ⟨by decide, (Game.getActiveStates_spec
      (fun s => { modal := decide (s = 2), active := decide (s ≤ 1 ∨ s = 4) })
      { _states := [0, 1, 2, 3, 4] } (by decide)).1⟩

/-! ## Placing, destroying and acting on objects: theorems -/

/-- C20: `handleAction` throws for ROTATE exactly when the object is not a `DudeObject` and
for TALK exactly when it is not a `CritterObject`; a throwing call leaves every object (so
every orientation) as it was and makes no call; for LOOK it succeeds, leaves every object
as it was, and its only call is the object's `description_p_proc`. -/
theorem Location.handleAction_errors (objects : ObjectStore) (player object : Nat) :
    ((Location.handleAction objects player object .ROTATE).1
        = .error ⟨"Location::handleAction() - only Dude can be rotated"⟩
      ↔ (objects object).cls.isA .DudeObject = false) ∧
    ((Location.handleAction objects player object .TALK).1
        = .error ⟨"Location::handleAction() - can talk only with critters!"⟩
      ↔ (objects object).cls.isA .CritterObject = false) ∧
    (∀ action : Icon, (Location.handleAction objects player object action).1 ≠ .ok () →
      (action = .ROTATE ∨ action = .TALK)
      ∧ (Location.handleAction objects player object action).2 = (objects, [])) ∧
    Location.handleAction objects player object .LOOK
      = (.ok (), objects, [.description_p_proc object]) := by
  refine ⟨?_, ?_, ?_, rfl⟩
  · simp only [Location.handleAction, dynamic_cast_some]
    cases (objects object).cls.isA .DudeObject <;> simp
  · simp only [Location.handleAction, dynamic_cast_some]
    cases (objects object).cls.isA .CritterObject <;> simp
  · intro action
    cases action with
    | ROTATE =>
      simp only [Location.handleAction, dynamic_cast_some]
      cases hd : (objects object).cls.isA .DudeObject <;> simp
    | TALK =>
      simp only [Location.handleAction, dynamic_cast_some]
      cases hc : (objects object).cls.isA .CritterObject <;> simp
    | _ => intro h; exact absurd rfl h

theorem Location.handleAction_errors_witness :
    (Location.handleAction (fun _ => { cls := .DoorSceneryObject }) 0 3 .ROTATE).1 ≠ .ok () ∧
    (Location.handleAction (fun _ => { cls := .DoorSceneryObject }) 0 3 .ROTATE).2
      = (fun _ => { cls := .DoorSceneryObject }, []) :=
  ⟨(fun h => by cases h),
    ((Location.handleAction_errors (fun _ => { cls := .DoorSceneryObject }) 0 3).2.2.1
      .ROTATE (fun h => by cases h)).2⟩

theorem List.erase_filter_ne (l : List Nat) (a : Nat) :
    (l.erase a).filter (fun x => x != a) = l.filter (fun x => x != a) := by
  induction l with
  | nil => rfl
  | cons x xs ih =>
    by_cases hx : x = a
    · subst hx
      simp
    · have hba : ¬ (x == a) = true := by simpa using hx
      rw [List.erase_cons_tail hba]
      simp [List.filter_cons, hx, ih]

/-- C19: `destroyObject(o)`, for an object that is on a hexagon, runs `o`'s
`destroy_p_proc` on the state as it was (nothing removed yet), and in the state that
leaves: the first occurrence of `o` is erased from the object list of `o`'s hexagon and
from the location's object list, the other objects of both lists are kept in their order,
the other hexagons' lists and the objects themselves are untouched, and `o` is not the
object under the cursor (which is otherwise as it was). -/
theorem Location.destroyObject_removes
    (destroy_p_proc : Nat → World × Location → World × Location)
    (st : World × Location) (object hexagon : Nat)
    (hhex : (st.1.objects object).hexagon = some hexagon) :
    ∃ st1 : World × Location,
      Location.destroyObject destroy_p_proc st object = some st1 ∧
      st1.1.hexagonObjects hexagon
        = ((destroy_p_proc object st).1.hexagonObjects hexagon).erase object ∧
      st1.2._objects = (destroy_p_proc object st).2._objects.erase object ∧
      (st1.1.hexagonObjects hexagon).filter (fun x => x != object)
        = ((destroy_p_proc object st).1.hexagonObjects hexagon).filter (fun x => x != object) ∧
      st1.2._objects.filter (fun x => x != object)
        = (destroy_p_proc object st).2._objects.filter (fun x => x != object) ∧
      (st1.1.hexagonObjects hexagon).count object
        = ((destroy_p_proc object st).1.hexagonObjects hexagon).count object - 1 ∧
      st1.2._objects.count object = (destroy_p_proc object st).2._objects.count object - 1 ∧
      (∀ other : Nat, other ≠ hexagon →
        st1.1.hexagonObjects other = (destroy_p_proc object st).1.hexagonObjects other) ∧
      st1.1.objects = (destroy_p_proc object st).1.objects ∧
      st1.2._objectUnderCursor ≠ some object ∧
      ((destroy_p_proc object st).2._objectUnderCursor ≠ some object →
        st1.2._objectUnderCursor = (destroy_p_proc object st).2._objectUnderCursor) := by
  unfold Location.destroyObject
  rw [hhex]
  refine ⟨_, rfl, ?_, ?_, ?_, ?_, ?_, ?_, ?_, rfl, ?_, ?_⟩
  · simp
  · simp only
    split <;> rfl
  · simp [List.erase_filter_ne]
  · simp only
    split <;> simp [List.erase_filter_ne]
  · simp [List.count_erase_self]
  · simp only
    split <;> simp [List.count_erase_self]
  · intro other hne
    simp [Function.update_noteq hne]
  · simp only
    split
    · simp
    · rename_i hcur
      simpa using hcur
  · intro hcur
    simp only
    split
    · rename_i h
      exact absurd (by simpa using h) hcur
    · rfl

theorem Location.destroyObject_removes_witness :
    ((fun _ => ({ hexagon := some 7 } : GameObject)) 2).hexagon = some 7 ∧
    ∃ st1 : World × Location,
      Location.destroyObject (fun _ st => st)
        ({ objects := fun _ => { hexagon := some 7 }, hexagonObjects := fun _ => [1, 2, 3, 2] },
         { _objects := [5, 2, 6], _objectUnderCursor := some 2 }) 2 = some st1 ∧
      st1.1.hexagonObjects 7 = [1, 3, 2] ∧ st1.2._objects = [5, 6] :=
  ⟨rfl,
    match Location.destroyObject_removes (fun _ st => st)
      ({ objects := fun _ => { hexagon := some 7 }, hexagonObjects := fun _ => [1, 2, 3, 2] },
       { _objects := [5, 2, 6], _objectUnderCursor := some 2 }) 2 7 rfl with
    | ⟨st1, h1, h2, h3, _⟩ => ⟨st1, h1, h2, h3⟩⟩

theorem Location.moveObjectToHexagon_frame (world : World) (object hexagon : Nat) :
    (Location.moveObjectToHexagon world object hexagon).vms = world.vms ∧
    (Location.moveObjectToHexagon world object hexagon).objectCount = world.objectCount ∧
    (∀ other : Nat, other ≠ object →
      (Location.moveObjectToHexagon world object hexagon).objects other = world.objects other) ∧
    (Location.moveObjectToHexagon world object hexagon).objects object
      = { world.objects object with hexagon := some hexagon } := by
  unfold Location.moveObjectToHexagon
  cases (world.objects object).hexagon with
  | none =>
    refine ⟨rfl, rfl, ?_, by simp⟩
    intro other hne
    simp [Function.update_noteq hne]
  | some old =>
    refine ⟨rfl, rfl, ?_, by simp⟩
    intro other hne
    simp [Function.update_noteq hne]

theorem Location.attachScripts_spec (intFileType : Int → Option Nat) (world : World)
    (object : Nat) (m : MapObject) :
    (Location.setLocation.attachScripts intFileType world object m).objectCount
      = world.objectCount ∧
    (Location.setLocation.attachScripts intFileType world object m).hexagonObjects
      = world.hexagonObjects ∧
    (∀ other : Nat, other ≠ object →
      (Location.setLocation.attachScripts intFileType world object m).objects other
        = world.objects other) ∧
    (Location.setLocation.attachScripts intFileType world object m).vms
      = world.vms
        ++ (match (if m.scriptId > 0 then intFileType m.scriptId else none) with
            | some f => [{ program := f, owner := some object }]
            | none => [])
        ++ (match (if m.mapScriptId > 0 ∧ m.mapScriptId ≠ m.scriptId then
                    intFileType m.mapScriptId else none) with
            | some f => [{ program := f, owner := some object }]
            | none => []) ∧
    (Location.setLocation.attachScripts intFileType world object m).objects object
      = { world.objects object with
          script :=
            (match (if m.mapScriptId > 0 ∧ m.mapScriptId ≠ m.scriptId then
                      intFileType m.mapScriptId else none) with
             | some _ =>
               some (world.vms.length
                 + (match (if m.scriptId > 0 then intFileType m.scriptId else none) with
                    | some _ => 1
                    | none => 0))
             | none =>
               match (if m.scriptId > 0 then intFileType m.scriptId else none) with
               | some _ => some world.vms.length
               | none => (world.objects object).script) } := by
  unfold Location.setLocation.attachScripts
  by_cases hA : m.scriptId > 0 <;> by_cases hB : m.mapScriptId > 0 <;>
    by_cases hne : m.mapScriptId = m.scriptId <;>
      cases hiA : intFileType m.scriptId <;> cases hiB : intFileType m.mapScriptId <;>
        (simp [World.setScriptNewVM, hA, hB, hne, hiA, hiB] <;>
          (intro other hother; simp [Function.update_noteq hother]))

theorem Location.loadObject_none (createObject : Nat → Option GameObject)
    (intFileType : Int → Option Nat) (st : World × Location) (m : MapObject)
    (hc : createObject m.PID = none) :
    Location.setLocation.loadObject createObject intFileType st m = st := by
  unfold Location.setLocation.loadObject
  rw [hc]

theorem Location.loadObject_spec (createObject : Nat → Option GameObject)
    (intFileType : Int → Option Nat) (world : World) (loc : Location) (m : MapObject)
    (created : GameObject) (hc : createObject m.PID = some created) :
    (Location.setLocation.loadObject createObject intFileType (world, loc) m).2
      = { loc with _objects := loc._objects ++ [world.objectCount] } ∧
    (Location.setLocation.loadObject createObject intFileType (world, loc) m).1.objectCount
      = world.objectCount + 1 ∧
    (∀ other : Nat, other ≠ world.objectCount →
      (Location.setLocation.loadObject createObject intFileType (world, loc) m).1.objects other
        = world.objects other) ∧
    (Location.setLocation.loadObject createObject intFileType (world, loc) m).1.vms
      = world.vms
        ++ (match (if m.scriptId > 0 then intFileType m.scriptId else none) with
            | some f => [{ program := f, owner := some world.objectCount }]
            | none => [])
        ++ (match (if m.mapScriptId > 0 ∧ m.mapScriptId ≠ m.scriptId then
                    intFileType m.mapScriptId else none) with
            | some f => [{ program := f, owner := some world.objectCount }]
            | none => []) ∧
    ((Location.setLocation.loadObject createObject intFileType (world, loc) m).1.objects
        world.objectCount).script
      = (match (if m.mapScriptId > 0 ∧ m.mapScriptId ≠ m.scriptId then
                  intFileType m.mapScriptId else none) with
         | some _ =>
           some (world.vms.length
             + (match (if m.scriptId > 0 then intFileType m.scriptId else none) with
                | some _ => 1
                | none => 0))
         | none =>
           match (if m.scriptId > 0 then intFileType m.scriptId else none) with
           | some _ => some world.vms.length
           | none => created.script) := by
  unfold Location.setLocation.loadObject
  rw [hc]
  simp only
  have ha := fun w2 : World => Location.attachScripts_spec intFileType w2 world.objectCount m
  have hm := fun w : World =>
    Location.moveObjectToHexagon_frame w world.objectCount m.hexPosition
  refine ⟨trivial, ?_, ?_, ?_, ?_⟩
  · rw [(hm _).2.1, (ha _).1]
  · intro other hne
    rw [(hm _).2.2.1 other hne, (ha _).2.2.1 other hne]
    simp [setOrientation, Function.update_noteq hne]
  · rw [(hm _).1, (ha _).2.2.2.1]
  · rw [(hm _).2.2.2, (ha _).2.2.2.2]
    simp [setOrientation]

theorem Location.loadObject_script_vm (createObject : Nat → Option GameObject)
    (intFileType : Int → Option Nat) (world : World) (loc : Location) (m : MapObject)
    (created : GameObject) (hc : createObject m.PID = some created) :
    (∀ f : Nat, placedProgram intFileType m = some f →
      ∃ vm : Nat,
        ((Location.setLocation.loadObject createObject intFileType (world, loc) m).1.objects
          world.objectCount).script = some vm ∧
        (Location.setLocation.loadObject createObject intFileType (world, loc) m).1.vms[vm]?
          = some (VMInstance.mk f (some world.objectCount)) ∧
        world.vms.length ≤ vm) ∧
    (placedProgram intFileType m = none →
      ((Location.setLocation.loadObject createObject intFileType (world, loc) m).1.objects
        world.objectCount).script = created.script) := by
  obtain ⟨_, _, _, hv, hscr⟩ :=
    Location.loadObject_spec createObject intFileType world loc m created hc
  rw [hv, hscr]
  unfold placedProgram
  generalize (if m.scriptId > 0 then intFileType m.scriptId else none) = optA
  generalize (if m.mapScriptId > 0 ∧ m.mapScriptId ≠ m.scriptId then
    intFileType m.mapScriptId else none) = optB
  cases optA <;> cases optB <;>
    simp [List.getElem?_append_right, List.getElem_append_right]

theorem Location.loadObjects_inv (createObject : Nat → Option GameObject)
    (intFileType : Int → Option Nat) (ms : List MapObject) :
    ∀ (w : World) (l : Location), ∃ (newObjs : List Nat) (newVMs : List VMInstance),
      (ms.foldl (Location.setLocation.loadObject createObject intFileType) (w, l)).2._objects
        = l._objects ++ newObjs ∧
      (ms.foldl (Location.setLocation.loadObject createObject intFileType) (w, l)).1.vms
        = w.vms ++ newVMs ∧
      (∀ h ∈ newObjs, w.objectCount ≤ h) ∧
      (∀ h : Nat, h < w.objectCount →
        (ms.foldl (Location.setLocation.loadObject createObject intFileType) (w, l)).1.objects h
          = w.objects h) ∧
      (∀ v ∈ newVMs, ∃ h ∈ newObjs, v.owner = some h) ∧
      List.Forall₂
        (fun h m =>
          (∀ f : Nat, placedProgram intFileType m = some f →
            ∃ vm : Nat,
              ((ms.foldl (Location.setLocation.loadObject createObject intFileType)
                (w, l)).1.objects h).script = some vm ∧
              (ms.foldl (Location.setLocation.loadObject createObject intFileType)
                (w, l)).1.vms[vm]? = some (VMInstance.mk f (some h)) ∧
              w.vms.length ≤ vm) ∧
          (placedProgram intFileType m = none →
            ((ms.foldl (Location.setLocation.loadObject createObject intFileType)
              (w, l)).1.objects h).script
              = (createObject m.PID).bind (fun created => created.script)))
        newObjs (ms.filter (fun m => (createObject m.PID).isSome)) := by
  induction ms with
  | nil =>
    intro w l
    exact ⟨[], [], by simp, by simp, by simp, fun _ _ => rfl, by simp, by simp⟩
  | cons m ms ih =>
    intro w l
    rw [List.foldl_cons]
    cases hc : createObject m.PID with
    | none =>
      rw [Location.loadObject_none createObject intFileType (w, l) m hc]
      have hfilter : (m :: ms).filter (fun m => (createObject m.PID).isSome)
          = ms.filter (fun m => (createObject m.PID).isSome) := by
        simp [List.filter_cons, hc]
      rw [hfilter]
      exact ih w l
    | some created =>
      have hfilter : (m :: ms).filter (fun m => (createObject m.PID).isSome)
          = m :: ms.filter (fun m => (createObject m.PID).isSome) := by
        simp [List.filter_cons, hc]
      rw [hfilter]
      obtain ⟨hl, hcount, hframe, hvms, _⟩ :=
        Location.loadObject_spec createObject intFileType w l m created hc
      obtain ⟨hsome, hnone⟩ :=
        Location.loadObject_script_vm createObject intFileType w l m created hc
      cases hst : Location.setLocation.loadObject createObject intFileType (w, l) m with
      | mk w1 l1 =>
        rw [hst] at hl hcount hframe hvms hsome hnone
        simp only at hl hcount hframe hvms hsome hnone
        obtain ⟨newObjs, newVMs, i1, i2, i3, i4, i5, i6⟩ := ih w1 l1
        generalize hr : ms.foldl (Location.setLocation.loadObject createObject intFileType)
          (w1, l1) = r at i1 i2 i4 i6
        have hself : r.1.objects w.objectCount = w1.objects w.objectCount :=
          i4 w.objectCount (by rw [hcount]; exact Nat.lt_succ_self _)
        have hkeep : ∀ (vm : Nat) (x : VMInstance), w1.vms[vm]? = some x →
            r.1.vms[vm]? = some x := by
          intro vm x hx
          rw [i2]
          have hlt : vm < w1.vms.length := by
            by_contra hge
            rw [List.getElem?_eq_none (Nat.not_lt.mp hge)] at hx
            cases hx
          rw [List.getElem?_append_left hlt]
          exact hx
        have hgrow : w.vms.length ≤ w1.vms.length := by
          rw [hvms]
          simp only [List.length_append]
          omega
        refine ⟨w.objectCount :: newObjs,
          ((match (if m.scriptId > 0 then intFileType m.scriptId else none) with
            | some f => [{ program := f, owner := some w.objectCount }]
            | none => [])
          ++ (match (if m.mapScriptId > 0 ∧ m.mapScriptId ≠ m.scriptId then
                      intFileType m.mapScriptId else none) with
              | some f => [{ program := f, owner := some w.objectCount }]
              | none => [])) ++ newVMs, ?_, ?_, ?_, ?_, ?_, ?_⟩
        · rw [i1, hl]
          simp
        · rw [i2, hvms]
          simp
        · intro h hh
          rcases List.mem_cons.mp hh with rfl | hh
          · exact Nat.le_refl _
          · have := i3 h hh
            omega
        · intro h hh
          rw [i4 h (by omega), hframe h (by omega)]
        · intro v hv
          rcases List.mem_append.mp hv with hv | hv
          · refine ⟨w.objectCount, List.mem_cons_self _ _, ?_⟩
            rcases List.mem_append.mp hv with hv | hv
            · generalize (if m.scriptId > 0 then intFileType m.scriptId else none) = optA at hv
              cases optA with
              | none => simp at hv
              | some f => simp at hv; rw [hv]
            · generalize (if m.mapScriptId > 0 ∧ m.mapScriptId ≠ m.scriptId then
                intFileType m.mapScriptId else none) = optB at hv
              cases optB with
              | none => simp at hv
              | some f => simp at hv; rw [hv]
          · obtain ⟨h, hh, hown⟩ := i5 v hv
            exact ⟨h, List.mem_cons_of_mem _ hh, hown⟩
        · refine List.Forall₂.cons ⟨?_, ?_⟩ ?_
          · intro f hf
            obtain ⟨vm, h1, h2, h3⟩ := hsome f hf
            exact ⟨vm, by rw [hself]; exact h1, hkeep vm _ h2, h3⟩
          · intro hn
            rw [hself, hnone hn, hc]
            rfl
          · refine List.Forall₂.imp ?_ i6
            intro h x ⟨hx1, hx2⟩
            refine ⟨?_, hx2⟩
            intro f hf
            obtain ⟨vm, h1, h2, h3⟩ := hx1 f hf
            exact ⟨vm, h1, h2, Nat.le_trans hgrow h3⟩

theorem placedProgram_isSome (intFileType : Int → Option Nat) (m : MapObject)
    (h : (placedProgram intFileType m).isSome = true) :
    (m.scriptId > 0 ∧ (intFileType m.scriptId).isSome = true)
    ∨ (m.mapScriptId > 0 ∧ (intFileType m.mapScriptId).isSome = true) := by
  unfold placedProgram at h
  by_cases hB : m.mapScriptId > 0 ∧ m.mapScriptId ≠ m.scriptId
  · rw [if_pos hB] at h
    cases hiB : intFileType m.mapScriptId with
    | some f => exact Or.inr ⟨hB.1, rfl⟩
    | none =>
      rw [hiB] at h
      simp only at h
      by_cases hA : m.scriptId > 0
      · rw [if_pos hA] at h
        exact Or.inl ⟨hA, h⟩
      · rw [if_neg hA] at h
        cases h
  · rw [if_neg hB] at h
    simp only at h
    by_cases hA : m.scriptId > 0
    · rw [if_pos hA] at h
      exact Or.inl ⟨hA, h⟩
    · rw [if_neg hA] at h
      cases h

/-- C14, as stated, fails: with an object factory that returns an object which already
has a script (here VM 0), a map record whose `scriptId` and `mapScriptId` are both -1 is
placed as object 0 and has a script VM after the loop. -/
theorem Location.setLocation_scripts_counterexample :
    (Location.setLocation.loadObjects (fun _ => some { script := some 0 }) (fun _ => none)
        { objects := fun _ => {}, vms := [{ program := 5, owner := some 0 }] } {}
        [{ PID := 1, scriptId := -1, mapScriptId := -1 }]).2._objects = [0] ∧
    ((Location.setLocation.loadObjects (fun _ => some { script := some 0 }) (fun _ => none)
        { objects := fun _ => {}, vms := [{ program := 5, owner := some 0 }] } {}
        [{ PID := 1, scriptId := -1, mapScriptId := -1 }]).1.objects 0).script = some 0 ∧
    ¬ (({ PID := 1, scriptId := -1, mapScriptId := -1 } : MapObject).scriptId > 0) ∧
    ¬ (({ PID := 1, scriptId := -1, mapScriptId := -1 } : MapObject).mapScriptId > 0) := by
  refine ⟨rfl, rfl, by decide, by decide⟩

/-- C14, amended: after the object loop of `setLocation`, the placed objects correspond, in
order, to the map records whose object could be created.  The script of a placed object is
a VM created by the loop and bound to that object, running the program for `mapScriptId` if
that id is positive, differs from `scriptId` and loads, else the program for `scriptId` if
that is positive and loads; when neither applies the object keeps the script it was created
with.  So a placed object has a script other than the one it was created with only if its
record has a positive `scriptId` or `mapScriptId` with a loadable program; every VM
instance created by the loop is bound to a placed object; and when both ids are positive
and different and both programs load, the script is the VM for `mapScriptId`. -/
theorem Location.setLocation_scripts (createObject : Nat → Option GameObject)
    (intFileType : Int → Option Nat)
    (world : World) (loc : Location) (mapObjects : List MapObject) :
    List.Forall₂
      (fun h m =>
        (∀ f : Nat, placedProgram intFileType m = some f →
          ∃ vm : Nat,
            ((Location.setLocation.loadObjects createObject intFileType world loc
              mapObjects).1.objects h).script = some vm ∧
            (Location.setLocation.loadObjects createObject intFileType world loc
              mapObjects).1.vms[vm]? = some (VMInstance.mk f (some h)) ∧
            world.vms.length ≤ vm) ∧
        (placedProgram intFileType m = none →
          ((Location.setLocation.loadObjects createObject intFileType world loc
            mapObjects).1.objects h).script
            = (createObject m.PID).bind (fun created => created.script)))
      (Location.setLocation.loadObjects createObject intFileType world loc
        mapObjects).2._objects
      (mapObjects.filter (fun m => (createObject m.PID).isSome)) ∧
    (∃ newVMs : List VMInstance,
      (Location.setLocation.loadObjects createObject intFileType world loc mapObjects).1.vms
        = world.vms ++ newVMs ∧
      ∀ v ∈ newVMs, ∃ h ∈ (Location.setLocation.loadObjects createObject intFileType world
        loc mapObjects).2._objects, v.owner = some h) ∧
    (∀ m : MapObject, (placedProgram intFileType m).isSome = true →
      (m.scriptId > 0 ∧ (intFileType m.scriptId).isSome = true)
      ∨ (m.mapScriptId > 0 ∧ (intFileType m.mapScriptId).isSome = true)) ∧
    (∀ (m : MapObject) (f1 f2 : Nat), m.scriptId > 0 → m.mapScriptId > 0 →
      m.mapScriptId ≠ m.scriptId → intFileType m.scriptId = some f1 →
      intFileType m.mapScriptId = some f2 → placedProgram intFileType m = some f2) := by
  obtain ⟨newObjs, newVMs, i1, i2, _, _, i5, i6⟩ :=
    Location.loadObjects_inv createObject intFileType mapObjects
      { world with hexagonObjects := fun _ => [] } { loc with _objects := [] }
  have hobjs : (Location.setLocation.loadObjects createObject intFileType world loc
      mapObjects).2._objects = newObjs := by
    unfold Location.setLocation.loadObjects
    rw [i1]
    rfl
  unfold Location.setLocation.loadObjects at hobjs ⊢
  rw [hobjs]
  refine ⟨i6, ⟨newVMs, i2, i5⟩, placedProgram_isSome intFileType, ?_⟩
  intro m f1 f2 hA hB hne h1 h2
  unfold placedProgram
  rw [if_pos ⟨hB, hne⟩, h2]

theorem Location.setLocation_scripts_witness :
    ∃ newVMs : List VMInstance,
      (Location.setLocation.loadObjects
          (fun p : Nat => if p = 0 then none else some ({} : GameObject))
          (fun id : Int => if id = 5 then none else some id.toNat)
          { objects := fun _ => {} } {}
          [{ PID := 1, scriptId := 3, mapScriptId := 4 }, { PID := 0, scriptId := 3 },
           { PID := 2, scriptId := 5 }]).1.vms = [] ++ newVMs ∧
      ∀ v ∈ newVMs, ∃ h ∈ (Location.setLocation.loadObjects
          (fun p : Nat => if p = 0 then none else some ({} : GameObject))
          (fun id : Int => if id = 5 then none else some id.toNat)
          { objects := fun _ => {} } {}
          [{ PID := 1, scriptId := 3, mapScriptId := 4 }, { PID := 0, scriptId := 3 },
           { PID := 2, scriptId := 5 }]).2._objects, v.owner = some h :=
  (Location.setLocation_scripts
      (fun p : Nat => if p = 0 then none else some ({} : GameObject))
      (fun id : Int => if id = 5 then none else some id.toNat)
      { objects := fun _ => {} } {}
      [{ PID := 1, scriptId := 3, mapScriptId := 4 }, { PID := 0, scriptId := 3 },
       { PID := 2, scriptId := 5 }]).2.1

/-! ## The rotate keys: theorems -/

theorem setOrientation_get (objects : ObjectStore) (h : Nat) (value : Orientation) :
    (setOrientation objects h value h).orientation = value := by
  simp [setOrientation]

theorem setOrientation_other (objects : ObjectStore) (h other : Nat) (value : Orientation)
    (hne : other ≠ h) : setOrientation objects h value other = objects other := by
  simp [setOrientation, Function.update_noteq hne]

theorem setOrientation_twice (objects : ObjectStore) (h : Nat) (a b : Orientation) :
    setOrientation (setOrientation objects h a) h b = setOrientation objects h b := by
  funext x
  by_cases hx : x = h
  · subst hx
    simp [setOrientation]
  · simp [setOrientation, Function.update_noteq hx]

theorem setOrientation_self (objects : ObjectStore) (h : Nat) :
    setOrientation objects h (objects h).orientation = objects := by
  funext x
  by_cases hx : x = h
  · subst hx
    simp [setOrientation]
  · simp [setOrientation, Function.update_noteq hx]

theorem Orientation.rotate_facts (o : Orientation) (h : o.toUnsignedChar < 6) :
    Orientation.ofUnsignedChar
        ((Orientation.ofUnsignedChar (o.toUnsignedChar + 1)).toUnsignedChar + 5) = o ∧
    Orientation.ofUnsignedChar
        ((Orientation.ofUnsignedChar (o.toUnsignedChar + 5)).toUnsignedChar + 1) = o ∧
    Orientation.ofUnsignedChar ((Orientation.ofUnsignedChar ((Orientation.ofUnsignedChar
      ((Orientation.ofUnsignedChar ((Orientation.ofUnsignedChar
        ((Orientation.ofUnsignedChar (o.toUnsignedChar + 1)).toUnsignedChar
          + 1)).toUnsignedChar + 1)).toUnsignedChar + 1)).toUnsignedChar
            + 1)).toUnsignedChar + 1) = o ∧
    Orientation.ofUnsignedChar ((Orientation.ofUnsignedChar ((Orientation.ofUnsignedChar
      ((Orientation.ofUnsignedChar ((Orientation.ofUnsignedChar
        ((Orientation.ofUnsignedChar (o.toUnsignedChar + 5)).toUnsignedChar
          + 5)).toUnsignedChar + 5)).toUnsignedChar + 5)).toUnsignedChar
            + 5)).toUnsignedChar + 5) = o := by
  cases o with
  | mk d =>
    simp only [Orientation.toUnsignedChar] at h
    simp only [Orientation.toUnsignedChar, Orientation.ofUnsignedChar, Orientation.mk.injEq]
    interval_cases d <;> decide

/-- C21: for a player (a `DudeObject`) whose orientation `o` is in 0..5, the PERIOD key
sets the orientation to `(o + 1) mod 6` and the COMMA key to `(o + 5) mod 6`, which is
`(o - 1) mod 6`; pressing one key after the other, or either key six times, leaves the
objects as they were; the keys change no other object; and the ROTATE action of
`handleAction` leaves the same objects as the PERIOD key. -/
theorem Location.rotate_keys (objects : ObjectStore) (player : Nat)
    (ho : (objects player).orientation.toUnsignedChar < 6)
    (hdude : (objects player).cls.isA .DudeObject = true) :
    ((Location.onKeyDown objects player .SDLK_PERIOD) player).orientation.toUnsignedChar
      = ((objects player).orientation.toUnsignedChar + 1) % 6 ∧
    ((Location.onKeyDown objects player .SDLK_COMMA) player).orientation.toUnsignedChar
      = ((objects player).orientation.toUnsignedChar + 5) % 6 ∧
    (((objects player).orientation.toUnsignedChar + 5) % 6 : Int)
      = (((objects player).orientation.toUnsignedChar : Int) - 1) % 6 ∧
    Location.onKeysDown objects player [.SDLK_PERIOD, .SDLK_COMMA] = objects ∧
    Location.onKeysDown objects player [.SDLK_COMMA, .SDLK_PERIOD] = objects ∧
    Location.onKeysDown objects player (List.replicate 6 .SDLK_PERIOD) = objects ∧
    Location.onKeysDown objects player (List.replicate 6 .SDLK_COMMA) = objects ∧
    (∀ (keyCode : KeyCode) (other : Nat), other ≠ player →
      Location.onKeyDown objects player keyCode other = objects other) ∧
    Location.handleAction objects player player .ROTATE
      = (.ok (), Location.onKeyDown objects player .SDLK_PERIOD, []) := by
  obtain ⟨h15, h51, h1, h5⟩ := Orientation.rotate_facts (objects player).orientation ho
  refine ⟨?_, ?_, ?_, ?_, ?_, ?_, ?_, ?_, ?_⟩
  · simp only [Location.onKeyDown, setOrientation_get, Orientation.ofUnsignedChar,
      Orientation.toUnsignedChar] at ho ⊢
    omega
  · simp only [Location.onKeyDown, setOrientation_get, Orientation.ofUnsignedChar,
      Orientation.toUnsignedChar] at ho ⊢
    omega
  · simp only [Orientation.toUnsignedChar] at ho ⊢
    omega
  · simp only [Location.onKeysDown, List.foldl, Location.onKeyDown, setOrientation_get,
      setOrientation_twice, h15]
    exact setOrientation_self objects player
  · simp only [Location.onKeysDown, List.foldl, Location.onKeyDown, setOrientation_get,
      setOrientation_twice, h51]
    exact setOrientation_self objects player
  · simp only [Location.onKeysDown, List.replicate, List.foldl, Location.onKeyDown,
      setOrientation_get, setOrientation_twice, h1]
    exact setOrientation_self objects player
  · simp only [Location.onKeysDown, List.replicate, List.foldl, Location.onKeyDown,
      setOrientation_get, setOrientation_twice, h5]
    exact setOrientation_self objects player
  · intro keyCode other hne
    cases keyCode <;> simp only [Location.onKeyDown] <;>
      exact setOrientation_other objects player other _ hne
  · simp only [Location.handleAction, dynamic_cast_some, hdude, if_true, Location.onKeyDown]
    have hsame : (if (objects player).orientation.toUnsignedChar + 1 > 5 then 0
        else (objects player).orientation.toUnsignedChar + 1)
        = ((objects player).orientation.toUnsignedChar + 1) % 6 := by
      split <;> omega
    have hmod : Orientation.ofUnsignedChar
        (((objects player).orientation.toUnsignedChar + 1) % 6)
        = Orientation.ofUnsignedChar ((objects player).orientation.toUnsignedChar + 1) := by
      simp only [Orientation.ofUnsignedChar, Orientation.mk.injEq]
      omega
    rw [hsame, hmod]

theorem Location.rotate_keys_witness :
    ((fun _ => ({ cls := .DudeObject, orientation := { _dir := 5 } } : GameObject))
      0).orientation.toUnsignedChar < 6 ∧
    ((Location.onKeyDown (fun _ => { cls := .DudeObject, orientation := { _dir := 5 } }) 0
      .SDLK_PERIOD) 0).orientation.toUnsignedChar = (5 + 1) % 6 :=
  ⟨by decide, (Location.rotate_keys
      (fun _ => { cls := .DudeObject, orientation := { _dir := 5 } }) 0 (by decide)
      (by decide)).1⟩

/-! ## Dropping a dragged item on the armor slot: theorems -/

theorem ItemsList.update_items (list : ItemsList) : list.update._items = list._items := rfl

/-- C22, as stated, fails: a weapon dragged from the items list and dropped inside the
rectangle of the empty armor slot becomes the item shown in the slot, while the player's
armor slot stays null, so the two differ. -/
theorem InventoryItem.onArmorDragStop_counterexample :
    (InventoryItem.onArmorDragStop (fun _ _ _ => true) (fun _ => { cls := .WeaponItemObject })
        {}
        { slot := { _type := .SLOT },
          itemsList := some
            { _items := [some 1], _inventoryItems := [{ _item := some 1 }],
              _draggedItem := some 0 },
          playerArmorSlot := none }).map
      (fun r => (r.slot._item, r.playerArmorSlot, decide (r.playerArmorSlot = r.slot._item)))
      = some (some 1, none, false) := by
  decide

/-- C22, amended: when the pointer is inside the slot's rectangle and the event's target is
an items list with a dragged item, `onArmorDragStop` erases the first occurrence of the
dragged item from the list's items, appends the slot's current item to them if the slot
held one, and makes the dragged item the slot's item; if the dragged item is an
`ArmorItemObject`, the player's armor slot is then the item shown in the slot.  When the
pointer is outside the rectangle, the list, the slot and the player's armor slot are
unchanged. -/
theorem InventoryItem.onArmorDragStop_spec (inRect : Point → Point → Size → Bool)
    (objects : ObjectStore) (eventPosition : Point) (slot : InventoryItem)
    (list : ItemsList) (armorSlot : ObjectPtr) (dragged : InventoryItem)
    (hdrag : list.draggedItem = some dragged) :
    (inRect eventPosition slot.position slot.size = true →
      ∃ (r : ArmorDrop) (list1 : ItemsList),
        InventoryItem.onArmorDragStop inRect objects eventPosition
          { slot := slot, itemsList := some list, playerArmorSlot := armorSlot } = some r ∧
        r.itemsList = some list1 ∧
        list1._items = list._items.erase dragged._item
          ++ (if slot._item.isSome then [slot._item] else []) ∧
        r.slot = { slot with _item := dragged._item } ∧
        ((dynamic_cast .ArmorItemObject objects dragged._item).isSome = true →
          r.playerArmorSlot = r.slot._item)) ∧
    (inRect eventPosition slot.position slot.size = false →
      ∀ st : ArmorDrop, st.slot = slot →
        InventoryItem.onArmorDragStop inRect objects eventPosition st = some st) := by
  constructor
  · intro hin
    unfold InventoryItem.onArmorDragStop
    simp only [hin, Bool.not_true, Bool.false_eq_true, if_false, hdrag]
    refine ⟨_, _, rfl, rfl, ?_, rfl, ?_⟩
    · cases hs : slot._item with
      | none => simp [ItemsList.removeItem, ItemsList.update_items]
      | some x => simp [ItemsList.removeItem, ItemsList.addItem, ItemsList.update_items, hs]
    · intro harmor
      cases hd : dynamic_cast .ArmorItemObject objects dragged._item with
      | none => rw [hd] at harmor; cases harmor
      | some armor =>
        simp only
        cases hi : dragged._item with
        | none => rw [hi, dynamic_cast_none] at hd; cases hd
        | some h =>
          rw [hi, dynamic_cast_some] at hd
          by_cases hc : (objects h).cls.isA .ArmorItemObject = true
          · rw [if_pos hc] at hd
            exact hd.symm
          · rw [if_neg hc] at hd
            cases hd
  · intro hout st hst
    unfold InventoryItem.onArmorDragStop
    rw [hst]
    simp [hout]

theorem InventoryItem.onArmorDragStop_spec_witness :
    (ItemsList.draggedItem
        { _items := [some 1, some 2], _inventoryItems := [{ _item := some 1 }, { _item := some 2 }],
          _draggedItem := some 1 } = some { _item := some 2 }) ∧
    ((fun (_ : Point) (_ : Point) (_ : Size) => true) {} {} {} = true) ∧
    ∃ (r : ArmorDrop) (list1 : ItemsList),
      InventoryItem.onArmorDragStop (fun _ _ _ => true) (fun _ => { cls := .ArmorItemObject }) {}
        { slot := { _item := some 7, _type := .SLOT },
          itemsList := some
            { _items := [some 1, some 2],
              _inventoryItems := [{ _item := some 1 }, { _item := some 2 }],
              _draggedItem := some 1 },
          playerArmorSlot := some 7 } = some r ∧
      r.itemsList = some list1 ∧
      list1._items = [some 1, some 7] :=
  ⟨rfl, rfl,
    match (InventoryItem.onArmorDragStop_spec (fun _ _ _ => true)
      (fun _ => { cls := .ArmorItemObject }) {} { _item := some 7, _type := .SLOT }
      { _items := [some 1, some 2], _inventoryItems := [{ _item := some 1 }, { _item := some 2 }],
        _draggedItem := some 1 } (some 7) { _item := some 2 } rfl).1 rfl with
    | ⟨r, list1, h1, h2, h3, _⟩ => ⟨r, list1, h1, h2, h3⟩⟩

end Falltergeist
